import Mathlib

/-! njump `data.go`: the `grabData` view-model pipeline.

A shallow embedding of `grabData` and of the `EnhancedEvent` helpers of
`data.go`.  Go strings are modelled by `String`; the `strings` package
functions used by the source are defined on the underlying character
lists.  Go indexes strings by byte; on the bech32 encodings sliced by the
source (ASCII) byte offsets and character offsets agree, and the model
slices by character.

Collaborators that live outside `data.go` (network fetches, the `nip19`
encoders, the regular-expression matchers, global tables) are fields of an
environment `Env`.  The network fetches thread an explicit world `σ`, and
every invocation is recorded in a call log.  A Go run-time panic is an
explicit `Abort` result.
-/

set_option autoImplicit false

namespace Njump

/-- A Go run-time panic. -/
inductive Abort where
  | nilDereference
  | sliceBoundsOutOfRange
  | indexOutOfRange
deriving DecidableEq, Repr

/-! ## The `strings` package -/

/-- Substring test on character lists: some suffix of `s` starts with `sub`. -/
def containsChars : List Char → List Char → Bool
  | [], sub => sub.isEmpty
  | c :: cs, sub => sub.isPrefixOf (c :: cs) || containsChars cs sub

/-- Go `strings.Contains(s, substr)`. -/
def stringsContains (s substr : String) : Bool :=
  containsChars s.data substr.data

/-- Go `strings.HasPrefix(s, p)`. -/
def stringsStartsWith (s p : String) : Bool :=
  p.data.isPrefixOf s.data

/-- Go `strings.HasSuffix(s, p)`. -/
def stringsHasSuffix (s p : String) : Bool :=
  p.data.isSuffixOf s.data

/-- Pieces of a character list between occurrences of the separator `sep`;
`cur` is the piece being read, reversed. -/
def splitChars (sep : Char) : List Char → List Char → List String
  | [], cur => [String.mk cur.reverse]
  | c :: cs, cur =>
    if c = sep then String.mk cur.reverse :: splitChars sep cs []
    else splitChars sep cs (c :: cur)

/-- Go `strings.Split(s, sep)` for a one-character separator (the source only
splits on the separator "/"). -/
def stringsSplit (s : String) (sep : Char) : List String :=
  splitChars sep s.data []

/-- Go slice expression `s[lo:hi]` on a string: it panics unless
`0 ≤ lo ≤ hi ≤ len(s)`. -/
def sliceString (s : String) (lo hi : Int) : Except Abort String :=
  if 0 ≤ lo ∧ lo ≤ hi ∧ hi ≤ (s.length : Int) then
    .ok (String.mk ((s.data.drop lo.toNat).take (hi.toNat - lo.toNat)))
  else .error .sliceBoundsOutOfRange

/-! ## Data model -/

/-- A Go `error` value, identified with its message. -/
abbrev GoError := String

/-- A `nostr.Tag`: an ordered sequence of strings. -/
abbrev Tag := List String

/-- The type `nostr.Tags`. -/
abbrev Tags := List Tag

/-- The record `nostr.Event`. -/
structure Event where
  ID : String
  PubKey : String
  CreatedAt : Int
  Kind : Int
  Tags : Tags
  Content : String
  Sig : String
deriving DecidableEq, Repr

/-- The record `nostr.ProfileMetadata`; `grabData` reads only `Name`, the other
decoded fields are kept as key/value pairs. -/
structure ProfileMetadata where
  Name : String
  rest : List (String × String)
deriving DecidableEq, Repr

/-- The render-template selector `TemplateID`, declared outside `data.go`: a
numeric type, so `var templateId TemplateID` starts at `0`.  The constants
`Note`, `FileMetadata` and `Other` are fields of `Env`. -/
abbrev TemplateID := Nat

/-- A Go `map[string]string` as an association list with unique keys. -/
structure GoMap where
  entries : List (String × String)
deriving DecidableEq, Repr

/-- The empty map `make(map[string]string)`. -/
def GoMap.empty : GoMap := ⟨[]⟩

/-- Assignment `m[k] = v`: a later assignment replaces an earlier one. -/
def GoMap.set (m : GoMap) (k v : String) : GoMap :=
  ⟨(k, v) :: m.entries.filter (fun p => p.1 != k)⟩

/-- Comma-ok lookup `v, ok := m[k]`. -/
def GoMap.find (m : GoMap) (k : String) : Option String :=
  m.entries.lookup k

/-- Index expression `m[k]` on a possibly nil map: the zero value "" when the
key is absent or the map is nil. -/
def mapIndex (m : Option GoMap) (k : String) : String :=
  match m with
  | none => ""
  | some m => (m.find k).getD ""

/-- The struct `EnhancedEvent`. -/
structure EnhancedEvent where
  event : Event
  relays : List String
deriving DecidableEq, Repr

/-- The struct `Data`. -/
structure Data where
  templateId : TemplateID
  event : Event
  relays : List String
  npub : String
  npubShort : String
  nprofile : String
  nevent : String
  neventNaked : String
  naddr : String
  naddrNaked : String
  createdAt : String
  modifiedAt : String
  parentLink : String
  metadata : ProfileMetadata
  authorRelays : List String
  authorLong : String
  authorShort : String
  renderableLastNotes : List EnhancedEvent
  kindDescription : String
  kindNIP : String
  video : String
  videoType : String
  image : String
  content : String
  kind1063Metadata : Option GoMap
deriving DecidableEq, Repr

/-! ## Collaborators -/

/-- The three results of `getEvent`. -/
structure GetEventResult where
  event : Option Event
  relays : List String
  err : Option GoError
deriving DecidableEq, Repr

/-- Everything `data.go` uses but does not define.  The network fetches take
and return the world `σ`; a nil slice argument is passed as `[]`. -/
structure Env (σ : Type) where
  /-- The call `getEvent(ctx, code, relayHints)`. -/
  getEvent : σ → String → List String → GetEventResult × σ
  /-- The call `relaysForPubkey(ctx, pubkey)`. -/
  relaysForPubkey : σ → String → List String × σ
  /-- The call `authorLastNotes(ctx, pubkey, relays, isProfileSitemap)`. -/
  authorLastNotes : σ → String → List String → Bool → List Event × σ
  /-- The global `excludedRelays`. -/
  excludedRelays : List String
  /-- The global table `kindNames`; "" for a missing key. -/
  kindNames : Int → String
  /-- The global table `kindNIPs`; "" for a missing key. -/
  kindNIPs : Int → String
  /-- The template constant `Note`. -/
  Note : TemplateID
  /-- The template constant `FileMetadata`. -/
  FileMetadata : TemplateID
  /-- The template constant `Other`. -/
  Other : TemplateID
  /-- The helper `trimProtocol(relay)`. -/
  trimProtocol : String → String
  /-- The helper `limitAt(list, n)`. -/
  limitAt : List String → Nat → List String
  /-- The helper `getParentNevent(event)`. -/
  getParentNevent : Event → String
  /-- The call `replaceNostrURLsWithTags(nostrNoteNeventMatcher, input)`. -/
  replaceNostrURLsWithTags : String → String
  /-- The call `urlMatcher.FindAllString(content, -1)`. -/
  urlMatcher : String → List String
  /-- The call `imageExtensionMatcher.MatchString(url)`. -/
  imageExtensionMatcher : String → Bool
  /-- The call `videoExtensionMatcher.MatchString(url)`. -/
  videoExtensionMatcher : String → Bool
  /-- The call `nip19.EncodePublicKey(pubkey)`. -/
  EncodePublicKey : String → String × Option GoError
  /-- The call `nip19.EncodeEvent(id, relays, author)`. -/
  EncodeEvent : String → List String → String → String × Option GoError
  /-- The call `nip19.EncodeEntity(pubkey, kind, identifier, relays)`. -/
  EncodeEntity : String → Int → String → List String → String × Option GoError
  /-- The call `nip19.EncodeProfile(pubkey, relays)`. -/
  EncodeProfile : String → List String → String × Option GoError
  /-- The call `nip10.GetImmediateReply(tags)`. -/
  GetImmediateReply : Tags → Option Tag
  /-- The call `json.Unmarshal([]byte(content), &metadata)` on a zero-valued
  `nostr.ProfileMetadata`: the struct after decoding, and the error. -/
  jsonUnmarshal : String → ProfileMetadata × Option GoError
  /-- The call `time.Unix(sec, 0).Format(layout)`. -/
  timeFormat : Int → String → String

/-- One invocation of a network collaborator. -/
inductive Call where
  | getEvent (code : String) (relayHints : List String)
  | relaysForPubkey (pubkey : String)
  | authorLastNotes (pubkey : String) (relays : List String) (isProfileSitemap : Bool)
deriving DecidableEq, Repr

/-! ## go-nostr tag helpers -/

/-- Modelled from the spec: go-nostr's `Tag.StartsWith`, which is outside
`data.go`.  A tag matches a pattern when it is at least as long, agrees with
it on every element but the last, and its element at the last position starts
with the last pattern element.  With the pattern `[key, ""]` used by the
source this selects the tags of at least two elements whose first element is
`key`. -/
def tagStartsWith : Tag → List String → Bool
  | _, [] => true
  | [], _ :: _ => false
  | t :: _, [p] => stringsStartsWith t p
  | t :: ts, p :: q :: ps => t == p && tagStartsWith ts (q :: ps)

/-- Modelled from the spec: go-nostr's `Tags.GetFirst`, which is outside
`data.go`: the first tag, in tag order, that matches the pattern; nil when
there is none. -/
def GetFirst (tags : Tags) (pattern : List String) : Option Tag :=
  tags.find? (fun tag => tagStartsWith tag pattern)

/-- Modelled from the spec: go-nostr's `Tag.Value`, which is outside
`data.go`: the second element of the tag, "" when the tag is shorter. -/
def Tag.Value (tag : Tag) : String :=
  match tag with
  | _ :: v :: _ => v
  | _ => ""

/-- Index expression `tag[i]` on a slice: it panics when `i` is out of range. -/
def indexSlice (xs : List String) (i : Nat) : Except Abort String :=
  match xs.get? i with
  | some x => .ok x
  | none => .error .indexOutOfRange

/-! ## `EnhancedEvent` methods -/

/-- The method `EnhancedEvent.IsReply`. -/
def EnhancedEvent.IsReply {σ : Type} (env : Env σ) (ee : EnhancedEvent) : Bool :=
  (env.GetImmediateReply ee.event.Tags).isSome

/-- The method `EnhancedEvent.Npub`. -/
def EnhancedEvent.Npub {σ : Type} (env : Env σ) (ee : EnhancedEvent) : String :=
  (env.EncodePublicKey ee.event.PubKey).1

/-- The expression `npub[:8] + "…" + npub[len(npub)-4:]`, operands evaluated
left to right. -/
def npubShort (npub : String) : Except Abort String :=
  match sliceString npub 0 8 with
  | .error a => .error a
  | .ok head =>
    match sliceString npub ((npub.length : Int) - 4) npub.length with
    | .error a => .error a
    | .ok tail => .ok (head ++ "…" ++ tail)

/-- The method `EnhancedEvent.NpubShort`. -/
def EnhancedEvent.NpubShort {σ : Type} (env : Env σ) (ee : EnhancedEvent) :
    Except Abort String :=
  npubShort (ee.Npub env)

/-- The method `EnhancedEvent.Nevent`. -/
def EnhancedEvent.Nevent {σ : Type} (env : Env σ) (ee : EnhancedEvent) : String :=
  (env.EncodeEvent ee.event.ID ee.relays ee.event.PubKey).1

/-- The method `EnhancedEvent.CreatedAtStr`. -/
def EnhancedEvent.CreatedAtStr {σ : Type} (env : Env σ) (ee : EnhancedEvent) : String :=
  env.timeFormat ee.event.CreatedAt "2006-01-02 15:04:05"

/-- The method `EnhancedEvent.ModifiedAtStr`. -/
def EnhancedEvent.ModifiedAtStr {σ : Type} (env : Env σ) (ee : EnhancedEvent) : String :=
  env.timeFormat ee.event.CreatedAt "2006-01-02T15:04:05Z07:00"

/-! ## `grabData`, block by block -/

/-- Lines 99-105: `relaysForNip19` is filled from `relays`; the loop is left
after the entry at index 2.  `i` is the loop index, `acc` the slice so far. -/
def relaysForNip19Loop : Nat → List String → List String → List String
  | _, [], acc => acc
  | i, relay :: rest, acc =>
    if i = 2 then acc ++ [relay] else relaysForNip19Loop (i + 1) rest (acc ++ [relay])

/-- Lines 126-130 (and 145-149): the scan of `excludedRelays` for one relay.
Its `continue` belongs to this inner loop, so a match only moves on to the
next excluded entry; `out` is the output slice of the enclosing loop. -/
def excludedScan (relay : String) (out : List String) : List String → List String
  | [] => out
  | excluded :: rest =>
    if stringsContains relay excluded then excludedScan relay out rest
    else excludedScan relay out rest

/-- Lines 125-135 (and 144-154): the loop over the raw relays, appending to
`out`. -/
def sanitizeLoop (excludedRelays : List String) (trimProtocol : String → String) :
    List String → List String → List String
  | [], out => out
  | relay :: rest, out =>
    let scanned := excludedScan relay out excludedRelays
    if stringsContains relay "/npub1" then
      sanitizeLoop excludedRelays trimProtocol rest scanned
    else
      sanitizeLoop excludedRelays trimProtocol rest (scanned ++ [trimProtocol relay])

/-- Lines 124-135: `eventRelays` from `relays`; with the raw author relays,
lines 144-154: `authorRelays`. -/
def sanitizeRelays (excludedRelays : List String) (trimProtocol : String → String)
    (relays : List String) : List String :=
  sanitizeLoop excludedRelays trimProtocol relays []

/-- Lines 181-195: `keysToExtract`. -/
def keysToExtract : List String :=
  ["url", "m", "aes-256-gcm", "x", "size", "dim", "magnet", "i", "blurhash",
   "thumb", "image", "summary", "alt"]

/-- Lines 203-208: the scan of `keysToExtract` for one `key`; the first equal
entry stores the value and leaves the loop. -/
def extractKey (key value : String) (m : GoMap) : List String → GoMap
  | [] => m
  | k :: ks => if key = k then m.set key value else extractKey key value m ks

/-- Lines 197-210: the loop over the tags of a kind-1063 event. -/
def extractTags : Tags → GoMap → GoMap
  | [], m => m
  | tag :: rest, m =>
    match tag with
    | [key, value] => extractTags rest (extractKey key value m keysToExtract)
    | _ => extractTags rest m

/-- The locals assigned by the kind switch (lines 137-220), the world and the
calls made inside it.  `returned` holds the error of the `return nil, err` at
line 163 when that statement is executed. -/
structure SwitchState (σ : Type) where
  templateId : TemplateID
  content : String
  parentLink : String
  naddr : String
  naddrNaked : String
  authorRelays : List String
  renderableLastNotes : List EnhancedEvent
  kind1063Metadata : Option GoMap
  returned : Option GoError
  world : σ
  calls : List Call

/-- The locals as declared on lines 111-122, before the switch. -/
def SwitchState.init {σ : Type} (w : σ) : SwitchState σ :=
  { templateId := 0, content := "", parentLink := "", naddr := "", naddrNaked := "",
    authorRelays := [], renderableLastNotes := [], kind1063Metadata := none,
    returned := none, world := w, calls := [] }

/-- Lines 138-164: `case 0`.  `err` is the variable assigned on line 93. -/
def switchKind0 {σ : Type} (env : Env σ) (w : σ) (event : Event) (err : Option GoError)
    (isProfileSitemap : Bool) : SwitchState σ :=
  let rawAuthorRelays := env.relaysForPubkey w event.PubKey
  let authorRelays := sanitizeRelays env.excludedRelays env.trimProtocol rawAuthorRelays.1
  let lastNotes := env.authorLastNotes rawAuthorRelays.2 event.PubKey authorRelays
    isProfileSitemap
  { SwitchState.init lastNotes.2 with
    authorRelays := authorRelays
    renderableLastNotes := lastNotes.1.map (fun levt => ⟨levt, []⟩)
    returned := err
    calls := [Call.relaysForPubkey event.PubKey,
              Call.authorLastNotes event.PubKey authorRelays isProfileSitemap] }

/-- Lines 165-170: `case 1, 7, 30023, 30024`. -/
def switchNote {σ : Type} (env : Env σ) (w : σ) (event : Event) : SwitchState σ :=
  let parentNevent := env.getParentNevent event
  { SwitchState.init w with
    templateId := env.Note
    content := event.Content
    parentLink :=
      if parentNevent ≠ "" then env.replaceNostrURLsWithTags ("nostr:" ++ parentNevent)
      else "" }

/-- Lines 171-176: `case 6`. -/
def switchRepost {σ : Type} (env : Env σ) (w : σ) (event : Event) :
    Except Abort (SwitchState σ) :=
  match GetFirst event.Tags ["e", ""] with
  | none => .ok { SwitchState.init w with templateId := env.Note }
  | some reposted =>
    match indexSlice reposted 1 with
    | .error a => .error a
    | .ok id =>
      .ok { SwitchState.init w with
            templateId := env.Note
            content := "Repost of nostr:" ++ (env.EncodeEvent id [] "").1 }

/-- Lines 177-210: `case 1063`. -/
def switchFileMetadata {σ : Type} (env : Env σ) (w : σ) (event : Event) : SwitchState σ :=
  { SwitchState.init w with
    templateId := env.FileMetadata
    kind1063Metadata := some (extractTags event.Tags GoMap.empty) }

/-- Lines 212-220: `default`. -/
def switchDefault {σ : Type} (env : Env σ) (w : σ) (event : Event)
    (relaysForNip19 : List String) : SwitchState σ :=
  if 30000 ≤ event.Kind ∧ event.Kind < 40000 then
    match GetFirst event.Tags ["d", ""] with
    | some d =>
      { SwitchState.init w with
        templateId := env.Other
        naddr := (env.EncodeEntity event.PubKey event.Kind d.Value relaysForNip19).1
        naddrNaked := (env.EncodeEntity event.PubKey event.Kind d.Value []).1 }
    | none => { SwitchState.init w with templateId := env.Other }
  else SwitchState.init w

/-- Lines 137-220: `switch event.Kind`. -/
def kindSwitch {σ : Type} (env : Env σ) (w : σ) (event : Event) (err : Option GoError)
    (relaysForNip19 : List String) (isProfileSitemap : Bool) :
    Except Abort (SwitchState σ) :=
  if event.Kind = 0 then .ok (switchKind0 env w event err isProfileSitemap)
  else if event.Kind = 1 ∨ event.Kind = 7 ∨ event.Kind = 30023 ∨ event.Kind = 30024 then
    .ok (switchNote env w event)
  else if event.Kind = 6 then switchRepost env w event
  else if event.Kind = 1063 then .ok (switchFileMetadata env w event)
  else .ok (switchDefault env w event relaysForNip19)

/-- The locals `author`, `nprofile` after lines 222-229, with the world and
the calls made there. -/
structure AuthorState (σ : Type) where
  author : Option Event
  nprofile : String
  world : σ
  calls : List Call

/-- Lines 222-229: for a kind other than 0 the author event is fetched again
at `npub`; `author` starts as the event itself (line 116). -/
def refetchAuthor {σ : Type} (env : Env σ) (w : σ) (event : Event) (npub : String)
    (relaysForNip19 : List String) : AuthorState σ :=
  if event.Kind ≠ 0 then
    let r := env.getEvent w npub relaysForNip19
    { author := r.1.event
      nprofile :=
        if r.1.relays.length > 0 then
          (env.EncodeProfile event.PubKey (env.limitAt r.1.relays 2)).1
        else ""
      world := r.2
      calls := [Call.getEvent npub relaysForNip19] }
  else { author := some event, nprofile := "", world := w, calls := [] }

/-- Lines 231-234: `kindDescription`. -/
def kindDescriptionOf {σ : Type} (env : Env σ) (kind : Int) : String :=
  if env.kindNames kind = "" then "Kind " ++ toString kind else env.kindNames kind

/-- The locals `image`, `video`, `videoType` (lines 237-239). -/
structure Media where
  image : String
  video : String
  videoType : String
deriving DecidableEq, Repr

/-- Lines 241-246: media of a kind-1063 event, from its `m` and `url` values. -/
def mediaFileMetadata (kind1063Metadata : Option GoMap) : Except Abort Media :=
  if stringsStartsWith (mapIndex kind1063Metadata "m") "image" then
    .ok { image := mapIndex kind1063Metadata "url", video := "", videoType := "" }
  else if stringsStartsWith (mapIndex kind1063Metadata "m") "video" then
    match indexSlice (stringsSplit (mapIndex kind1063Metadata "m") '/') 1 with
    | .error a => .error a
    | .ok videoType =>
      .ok { image := "", video := mapIndex kind1063Metadata "url", videoType := videoType }
  else .ok { image := "", video := "", videoType := "" }

/-- Lines 258-264: the video subtype from the suffix of the URL. -/
def videoTypeOf (video : String) : String :=
  if stringsHasSuffix video "mp4" then "mp4"
  else if stringsHasSuffix video "mov" then "mov"
  else "webm"

/-- Lines 249-267: the loop over the URLs found in the content. -/
def mediaScan {σ : Type} (env : Env σ) : List String → Media → Media
  | [], m => m
  | url :: rest, m =>
    if env.imageExtensionMatcher url then
      mediaScan env rest (if m.image = "" then { m with image := url } else m)
    else if env.videoExtensionMatcher url then
      mediaScan env rest
        (if m.video = "" then { m with video := url, videoType := videoTypeOf url } else m)
    else mediaScan env rest m

/-- Lines 237-268: `image`, `video` and `videoType`. -/
def mediaOf {σ : Type} (env : Env σ) (event : Event) (kind1063Metadata : Option GoMap) :
    Except Abort Media :=
  if event.Kind = 1063 then mediaFileMetadata kind1063Metadata
  else .ok (mediaScan env (env.urlMatcher event.Content)
    { image := "", video := "", videoType := "" })

/-- The locals `metadata`, `authorLong`, `authorShort` after lines 271-280. -/
structure AuthorNames where
  metadata : ProfileMetadata
  authorLong : String
  authorShort : String
deriving DecidableEq, Repr

/-- The call `fmt.Sprintf("%s (%s)", name, code)`. -/
def sprintfNameCode (name code : String) : String :=
  name ++ " (" ++ code ++ ")"

/-- Lines 271-280: the author display strings. -/
def authorNames {σ : Type} (env : Env σ) (author : Option Event) (npub npubShort : String) :
    AuthorNames :=
  match author with
  | none => { metadata := ⟨"", []⟩, authorLong := npub, authorShort := npubShort }
  | some author =>
    match (env.jsonUnmarshal author.Content).2 with
    | none =>
      { metadata := (env.jsonUnmarshal author.Content).1
        authorLong := sprintfNameCode (env.jsonUnmarshal author.Content).1.Name npub
        authorShort := sprintfNameCode (env.jsonUnmarshal author.Content).1.Name npubShort }
    | some _ =>
      { metadata := (env.jsonUnmarshal author.Content).1
        authorLong := npub, authorShort := npubShort }

/-- What a run of `grabData` leaves behind: `ret` is the returned pair
`(*Data, error)` or the panic that ended the run, `world` the world after the
last collaborator call, `calls` the collaborator calls in the order made. -/
structure Outcome (σ : Type) where
  ret : Except Abort (Option Data × Option GoError)
  world : σ
  calls : List Call

/-- Lines 99-308 of `grabData`: the run after the first fetch has produced a
non-nil `event`, the slice `relays` and the value `err` (nil past line 97). -/
def grabDataFetched {σ : Type} (env : Env σ) (w : σ) (code : String)
    (isProfileSitemap : Bool) (event : Event) (relays : List String)
    (err : Option GoError) : Outcome σ :=
  let relaysForNip19 := relaysForNip19Loop 0 relays []
  let npub := (env.EncodePublicKey event.PubKey).1
  let eventRelays := sanitizeRelays env.excludedRelays env.trimProtocol relays
  match kindSwitch env w event err relaysForNip19 isProfileSitemap with
  | .error a => { ret := .error a, world := w, calls := [Call.getEvent code []] }
  | .ok sw =>
    match sw.returned with
    | some e =>
      { ret := .ok (none, some e), world := sw.world
        calls := Call.getEvent code [] :: sw.calls }
    | none =>
      let au := refetchAuthor env sw.world event npub relaysForNip19
      match mediaOf env event sw.kind1063Metadata with
      | .error a =>
        { ret := .error a, world := au.world
          calls := Call.getEvent code [] :: (sw.calls ++ au.calls) }
      | .ok media =>
        match npubShort npub with
        | .error a =>
          { ret := .error a, world := au.world
            calls := Call.getEvent code [] :: (sw.calls ++ au.calls) }
        | .ok npubShort =>
          { ret := .ok (some
              { templateId := sw.templateId
                event := event
                relays := eventRelays
                npub := npub
                npubShort := npubShort
                nprofile := au.nprofile
                nevent := (env.EncodeEvent event.ID relaysForNip19 event.PubKey).1
                neventNaked := (env.EncodeEvent event.ID [] event.PubKey).1
                naddr := sw.naddr
                naddrNaked := sw.naddrNaked
                authorRelays := sw.authorRelays
                createdAt := env.timeFormat event.CreatedAt "2006-01-02 15:04:05"
                modifiedAt := env.timeFormat event.CreatedAt "2006-01-02T15:04:05Z07:00"
                parentLink := sw.parentLink
                metadata := (authorNames env au.author npub npubShort).metadata
                authorLong := (authorNames env au.author npub npubShort).authorLong
                authorShort := (authorNames env au.author npub npubShort).authorShort
                renderableLastNotes := sw.renderableLastNotes
                kindNIP := env.kindNIPs event.Kind
                kindDescription := kindDescriptionOf env event.Kind
                video := media.video
                videoType := media.videoType
                image := media.image
                content := sw.content
                kind1063Metadata := sw.kind1063Metadata }, none)
            world := au.world
            calls := Call.getEvent code [] :: (sw.calls ++ au.calls) }

/-- The function `grabData(ctx, code, isProfileSitemap)`. -/
def grabData {σ : Type} (env : Env σ) (w : σ) (code : String) (isProfileSitemap : Bool) :
    Outcome σ :=
  match (env.getEvent w code []).1.err with
  | some err =>
    { ret := .ok (none, some err), world := (env.getEvent w code []).2
      calls := [Call.getEvent code []] }
  | none =>
    match (env.getEvent w code []).1.event with
    | none =>
      { ret := .error .nilDereference, world := (env.getEvent w code []).2
        calls := [Call.getEvent code []] }
    | some event =>
      grabDataFetched env (env.getEvent w code []).2 code isProfileSitemap event
        (env.getEvent w code []).1.relays (env.getEvent w code []).1.err

/-- The event held by `author` on line 275: the event itself for kind 0
(line 116), otherwise the first result of the second `getEvent` (line 224),
which is called in the world left by the first one. -/
def authorAt {σ : Type} (env : Env σ) (w : σ) (code : String) (event : Event)
    (relays : List String) : Option Event :=
  if event.Kind = 0 then some event
  else (env.getEvent (env.getEvent w code []).2 (env.EncodePublicKey event.PubKey).1
    (relaysForNip19Loop 0 relays [])).1.event

/-- A tag of at least two elements whose first element is `key`. -/
def isKeyTag (key : String) (tag : Tag) : Bool :=
  match tag with
  | k :: _ :: _ => k == key
  | _ => false

/-- The values of the tags of exactly two elements whose first element is
`key`, in tag order. -/
def tagValues (tags : Tags) (key : String) : List String :=
  tags.filterMap (fun tag =>
    match tag with
    | [k, value] => if k = key then some value else none
    | _ => none)

/-- The part of `s` after its first "/" and before any further "/". -/
def afterFirstSlash (s : String) : String :=
  String.mk (((s.data.dropWhile (fun c => c != '/')).drop 1).takeWhile (fun c => c != '/'))

/-! ## A sample environment

Stand-ins for the collaborators, used to run `grabData` on concrete events. -/

/-- Sample `trimProtocol`: drops a leading "wss://" or "ws://". -/
def sampleTrimProtocol (relay : String) : String :=
  if stringsStartsWith relay "wss://" then String.mk (relay.data.drop 6)
  else if stringsStartsWith relay "ws://" then String.mk (relay.data.drop 5)
  else relay

/-- Sample URL finder: the blank-separated words that start with "http". -/
def sampleUrlMatcher (content : String) : List String :=
  (stringsSplit content ' ').filter (fun word => stringsStartsWith word "http")

/-- Sample extension matcher: the URL ends with `ext`, or has `ext` right
before a query string. -/
def sampleExtensionMatcher (exts : List String) (url : String) : Bool :=
  exts.any (fun ext => stringsHasSuffix url ext || stringsContains url (ext ++ "?"))

/-- Sample encoder: a 64-character key or id is encoded as `hrp` followed by
the key and the number of relay hints; anything else fails with "". -/
def sampleEncode (hrp key : String) (relays : List String) : String × Option GoError :=
  if key.length = 64 then (hrp ++ key ++ toString relays.length, none)
  else ("", some "invalid hex")

/-- Sample profile decoder: two JSON documents decode, anything else fails. -/
def sampleJsonUnmarshal (content : String) : ProfileMetadata × Option GoError :=
  if content = "\x7b\x7d" then (⟨"", []⟩, none)
  else if content = "\x7b\"name\":\"alice\"\x7d" then (⟨"alice", []⟩, none)
  else (⟨"", []⟩, some "invalid character")

/-- The sample environment over the store `fetch`, which answers `getEvent`;
the world counts the network calls made. -/
def sampleEnv (fetch : String → GetEventResult) : Env Nat where
  getEvent := fun w code _ => (fetch code, w + 1)
  relaysForPubkey := fun w _ => (["wss://relay.example/", "wss://filter.example/npub1xyz"], w + 1)
  authorLastNotes := fun w _ _ _ => ([], w + 1)
  excludedRelays := ["blocked.example"]
  kindNames := fun kind => if kind = 0 then "Profile Metadata" else
    if kind = 1 then "Short Text Note" else ""
  kindNIPs := fun kind => if kind = 0 ∨ kind = 1 then "01" else ""
  Note := 1
  FileMetadata := 2
  Other := 3
  trimProtocol := sampleTrimProtocol
  limitAt := fun list n => list.take n
  getParentNevent := fun event =>
    match GetFirst event.Tags ["e", ""] with
    | some tag => (sampleEncode "nevent1" tag.Value []).1
    | none => ""
  replaceNostrURLsWithTags := fun input => "<a>" ++ input ++ "</a>"
  urlMatcher := sampleUrlMatcher
  imageExtensionMatcher := sampleExtensionMatcher [".png", ".jpg"]
  videoExtensionMatcher := sampleExtensionMatcher [".mp4", ".mov", ".webm"]
  EncodePublicKey := fun pubkey => sampleEncode "npub1" pubkey []
  EncodeEvent := fun id relays _ => sampleEncode "nevent1" id relays
  EncodeEntity := fun pubkey _ _ relays => sampleEncode "naddr1" pubkey relays
  EncodeProfile := fun pubkey relays => sampleEncode "nprofile1" pubkey relays
  GetImmediateReply := fun tags => GetFirst tags ["e", ""]
  jsonUnmarshal := sampleJsonUnmarshal
  timeFormat := fun sec _ => toString sec

/-- A 64-character public key. -/
def samplePubKey : String :=
  "3bf0c63fcb93463407af97a5e5ee64fa883d107ef9e558472c4eb9aaaefa459d"

/-- A 64-character event id. -/
def sampleId : String :=
  "00000000000000000000000000000000000000000000000000000000000000e1"

/-- A sample event of the given kind, tags and content, signed by
`samplePubKey`. -/
def sampleEvent (kind : Int) (tags : Tags) (content : String) : Event :=
  { ID := sampleId, PubKey := samplePubKey, CreatedAt := 1700000000, Kind := kind,
    Tags := tags, Content := content, Sig := "" }

/-- The answer of a store that does not have the code. -/
def notFound : GetEventResult :=
  { event := none, relays := [], err := some "not found" }

/-- A store that serves `event` with `relays` under the code "code", and answers
every other code, such as the author's, with `author`. -/
def sampleFetch (event : Event) (relays : List String) (author : GetEventResult)
    (code : String) : GetEventResult :=
  if code = "code" then { event := some event, relays := relays, err := none }
  else author

/-! ## The node list sanitizer -/

/-- The scan of the exclusion list leaves the output slice as it was. -/
theorem excludedScan_eq (relay : String) (out excluded : List String) :
    excludedScan relay out excluded = out := by
  induction excluded with
  | nil => rfl
  | cons e rest ih => simp [excludedScan, ih]

/-- The sanitizing loop appends the trimmed relays that lack the marker. -/
theorem sanitizeLoop_eq (excluded : List String) (trimProtocol : String → String)
    (relays out : List String) :
    sanitizeLoop excluded trimProtocol relays out =
      out ++ (relays.filter (fun r => !stringsContains r "/npub1")).map trimProtocol := by
  induction relays generalizing out with
  | nil => simp [sanitizeLoop]
  | cons r rest ih =>
    by_cases h : stringsContains r "/npub1" = true
    · simp [sanitizeLoop, excludedScan_eq, ih, h]
    · simp [sanitizeLoop, excludedScan_eq, ih, h]

/-- C1: on the nodes of the specification's example, with the exclusion list
`["blocked.example"]`, the sanitizer does not drop the address that contains the
excluded substring: the output is `["good.relay/", "blocked.example/"]`, not
`["good.relay/"]`. -/
theorem sanitizeRelays_keeps_excluded :
    stringsContains "wss://blocked.example/" "blocked.example" = true ∧
    sanitizeRelays ["blocked.example"] sampleTrimProtocol
      ["wss://good.relay/", "wss://blocked.example/", "wss://x/npub1abc"] =
      ["good.relay/", "blocked.example/"] := by
  decide

/-- C2: the sanitized list is the input list without the addresses that contain
"/npub1", each remaining address passed through `trimProtocol`, in input order
and with repetitions kept; it is never longer than the input, and it is empty
for an empty input. -/
theorem sanitizeRelays_spec (excluded : List String) (trimProtocol : String → String)
    (relays : List String) :
    sanitizeRelays excluded trimProtocol relays =
      (relays.filter (fun r => !stringsContains r "/npub1")).map trimProtocol ∧
    (sanitizeRelays excluded trimProtocol relays).length ≤ relays.length ∧
    sanitizeRelays excluded trimProtocol [] = [] := by
  refine ⟨?_, ?_, rfl⟩
  · simp [sanitizeRelays, sanitizeLoop_eq]
  · simp only [sanitizeRelays, sanitizeLoop_eq, List.nil_append, List.length_map]
    exact List.length_filter_le _ _

/-! ## Slices, tags and the kind switch -/

/-- The short form is defined from 8 characters on. -/
theorem npubShort_ok (s : String) (h : 8 ≤ s.length) :
    npubShort s =
      .ok (String.mk (s.data.take 8) ++ "…" ++ String.mk (s.data.drop (s.length - 4))) := by
  have h1 : (8 : Int) ≤ (s.length : Int) := by exact_mod_cast h
  have h2 : (0 : Int) ≤ (s.length : Int) - 4 := by omega
  have h3 : ((s.length : Int) - 4).toNat = s.length - 4 := by omega
  have h4 : s.length - (s.length - 4) = 4 := by omega
  have h5 : (s.data.drop (s.length - 4)).length = 4 := by
    rw [List.length_drop]; exact h4
  have h6 : (s.data.drop (s.length - 4)).take 4 = s.data.drop (s.length - 4) :=
    List.take_of_length_le (le_of_eq h5)
  simp [npubShort, sliceString, h1, h2, h3, h4, h6]

/-- The short form of a string of fewer than 8 characters panics. -/
theorem npubShort_abort (s : String) (h : s.length < 8) :
    npubShort s = .error .sliceBoundsOutOfRange := by
  have h1 : ¬ (8 : Int) ≤ (s.length : Int) := by omega
  simp [npubShort, sliceString, h1]

/-- A tag found for the pattern `[key, ""]` has at least two elements and
`key` as its first. -/
theorem tagStartsWith_key (tag : Tag) (key : String) :
    tagStartsWith tag [key, ""] = true ↔ ∃ v rest, tag = key :: v :: rest := by
  match tag with
  | [] => simp [tagStartsWith]
  | [a] => simp [tagStartsWith]
  | a :: b :: rest =>
    simp [tagStartsWith, stringsStartsWith]

/-- The tag returned by `GetFirst` for the pattern `[key, ""]`. -/
theorem GetFirst_key (tags : Tags) (key : String) (tag : Tag)
    (h : GetFirst tags [key, ""] = some tag) : ∃ v rest, tag = key :: v :: rest := by
  have := List.find?_some h
  exact (tagStartsWith_key tag key).1 this

/-- The repost branch never indexes out of range. -/
theorem switchRepost_ok {σ : Type} (env : Env σ) (w : σ) (event : Event) :
    ∃ sw, switchRepost env w event = .ok sw ∧ sw.returned = none ∧ sw.world = w ∧
      sw.calls = [] ∧ sw.kind1063Metadata = none := by
  unfold switchRepost
  cases h : GetFirst event.Tags ["e", ""] with
  | none => exact ⟨_, rfl, rfl, rfl, rfl, rfl⟩
  | some reposted =>
    obtain ⟨v, rest, rfl⟩ := GetFirst_key _ _ _ h
    exact ⟨_, rfl, rfl, rfl, rfl, rfl⟩

/-- The kind switch always runs to its end, and leaves `returned` at the value
of `err`. -/
theorem kindSwitch_ok {σ : Type} (env : Env σ) (w : σ) (event : Event)
    (relaysForNip19 : List String) (isProfileSitemap : Bool) :
    ∃ sw, kindSwitch env w event none relaysForNip19 isProfileSitemap = .ok sw ∧
      sw.returned = none := by
  unfold kindSwitch
  split
  · exact ⟨_, rfl, rfl⟩
  · split
    · exact ⟨_, rfl, rfl⟩
    · split
      · obtain ⟨sw, h, hr, _⟩ := switchRepost_ok env w event
        exact ⟨sw, h, hr⟩
      · split
        · exact ⟨_, rfl, rfl⟩
        · refine ⟨_, rfl, ?_⟩
          unfold switchDefault
          split
          · split <;> rfl
          · rfl

/-- After a successful first fetch `grabData` continues at line 99. -/
theorem grabData_of_fetch {σ : Type} (env : Env σ) (w : σ) (code : String)
    (isProfileSitemap : Bool) (event : Event) (relays : List String)
    (h : (env.getEvent w code []).1 = ⟨some event, relays, none⟩) :
    grabData env w code isProfileSitemap =
      grabDataFetched env (env.getEvent w code []).2 code isProfileSitemap event relays
        none := by
  unfold grabData
  simp [h]

/-! ## Media found in the content -/

/-- URLs that match neither extension matcher leave the media as they are. -/
theorem mediaScan_no_match {σ : Type} (env : Env σ) (urls : List String) (m : Media)
    (h : ∀ u ∈ urls, env.imageExtensionMatcher u = false ∧
      env.videoExtensionMatcher u = false) :
    mediaScan env urls m = m := by
  induction urls generalizing m with
  | nil => rfl
  | cons u rest ih =>
    have hu := h u (List.mem_cons_self _ _)
    have hrest : ∀ v ∈ rest, env.imageExtensionMatcher v = false ∧
        env.videoExtensionMatcher v = false :=
      fun v hv => h v (List.mem_cons_of_mem _ hv)
    simp [mediaScan, hu.1, hu.2, ih _ hrest]

/-! ## Error handling -/

/-- A failed first fetch is returned as it is, with a nil `Data`. -/
theorem grabData_fetch_error {σ : Type} (env : Env σ) (w : σ) (code : String)
    (isProfileSitemap : Bool) (e : GoError)
    (h : (env.getEvent w code []).1.err = some e) :
    (grabData env w code isProfileSitemap).ret = .ok (none, some e) := by
  unfold grabData
  simp [h]

/-- After a successful first fetch no error is returned: the run returns a
`Data` with a nil error, or panics. -/
theorem grabData_fetch_ok {σ : Type} (env : Env σ) (w : σ) (code : String)
    (isProfileSitemap : Bool) (h : (env.getEvent w code []).1.err = none) :
    (∃ d, (grabData env w code isProfileSitemap).ret = .ok (some d, none)) ∨
    (∃ a, (grabData env w code isProfileSitemap).ret = .error a) := by
  unfold grabData
  simp only [h]
  cases he : (env.getEvent w code []).1.event with
  | none => exact Or.inr ⟨_, rfl⟩
  | some event =>
    simp only [grabDataFetched]
    obtain ⟨sw, hsw, hr⟩ := kindSwitch_ok env (env.getEvent w code []).2 event
      (relaysForNip19Loop 0 (env.getEvent w code []).1.relays []) isProfileSitemap
    simp only [hsw, hr]
    cases mediaOf env event sw.kind1063Metadata with
    | error a => exact Or.inr ⟨_, rfl⟩
    | ok media =>
      cases npubShort (env.EncodePublicKey event.PubKey).1 with
      | error a => exact Or.inr ⟨_, rfl⟩
      | ok short => exact Or.inl ⟨_, rfl⟩

/-- C3: the first fetch of this kind-1063 event succeeds (nil error), and
`grabData` returns neither a `Data` nor an error: the run panics on the index
`strings.Split(m, "/")[1]`, the `m` value "video" having no "/". -/
theorem grabData_panics_after_fetch :
    ((sampleEnv (sampleFetch
        (sampleEvent 1063 [["url", "https://example.com/v"], ["m", "video"]] "")
        ["wss://good.relay/"] notFound)).getEvent 0 "code" []).1.err = none ∧
    (grabData (sampleEnv (sampleFetch
        (sampleEvent 1063 [["url", "https://example.com/v"], ["m", "video"]] "")
        ["wss://good.relay/"] notFound)) 0 "code" false).ret =
      .error .indexOutOfRange :=
  ⟨rfl, rfl⟩

/-! ## Profile events -/

/-- C4, as stated, fails: this kind-0 event has a content with an image URL and
a video URL, and the resulting `Data` has both `image` and `video` set. -/
theorem grabData_kind0_media_set :
    ∃ d, (grabData (sampleEnv (sampleFetch
        (sampleEvent 0 [] "https://example.com/a.png https://example.com/b.mp4")
        [] notFound)) 0 "code" false).ret = .ok (some d, none) ∧
      d.event.Kind = 0 ∧ d.image = "https://example.com/a.png" ∧
      d.video = "https://example.com/b.mp4" ∧ d.videoType = "mp4" :=
  ⟨_, rfl, by decide, by decide, by decide, by decide⟩

/-- For a kind-0 event `relaysForPubkey` is called, however the run ends. -/
theorem grabData_kind0_calls {σ : Type} (env : Env σ) (w : σ) (code : String)
    (isProfileSitemap : Bool) (event : Event) (relays : List String)
    (hfetch : (env.getEvent w code []).1 = ⟨some event, relays, none⟩)
    (hkind : event.Kind = 0) :
    Call.relaysForPubkey event.PubKey ∈ (grabData env w code isProfileSitemap).calls := by
  rw [grabData_of_fetch env w code isProfileSitemap event relays hfetch]
  have hm : mediaOf env event none =
      .ok (mediaScan env (env.urlMatcher event.Content) ⟨"", "", ""⟩) := by
    simp [mediaOf, hkind]
  unfold grabDataFetched
  simp only [kindSwitch, hkind, if_true, switchKind0, SwitchState.init, hm]
  split <;> simp

/-- C4, amended: for every kind-0 event whose public key encodes to at least 8
characters, whatever its content, `relaysForPubkey` is called with the event's
public key and `grabData` returns a `Data` whose `content` is empty and whose
`image`, `video` and `videoType` are the result of the scan of the URLs matched
in the event content, hence empty when none of these URLs matches the image or
the video extension matcher. -/
theorem grabData_kind0 {σ : Type} (env : Env σ) (w : σ) (code : String)
    (isProfileSitemap : Bool) (event : Event) (relays : List String)
    (hfetch : (env.getEvent w code []).1 = ⟨some event, relays, none⟩)
    (hkind : event.Kind = 0)
    (hlen : 8 ≤ (env.EncodePublicKey event.PubKey).1.length) :
    Call.relaysForPubkey event.PubKey ∈ (grabData env w code isProfileSitemap).calls ∧
    ∃ d, (grabData env w code isProfileSitemap).ret = .ok (some d, none) ∧
      d.content = "" ∧
      (⟨d.image, d.video, d.videoType⟩ : Media) =
        mediaScan env (env.urlMatcher event.Content) ⟨"", "", ""⟩ ∧
      ((∀ u ∈ env.urlMatcher event.Content, env.imageExtensionMatcher u = false ∧
          env.videoExtensionMatcher u = false) →
        d.image = "" ∧ d.video = "" ∧ d.videoType = "") := by
  refine ⟨grabData_kind0_calls env w code isProfileSitemap event relays hfetch hkind, ?_⟩
  rw [grabData_of_fetch env w code isProfileSitemap event relays hfetch]
  have hm : mediaOf env event none =
      .ok (mediaScan env (env.urlMatcher event.Content) ⟨"", "", ""⟩) := by
    simp [mediaOf, hkind]
  unfold grabDataFetched
  simp only [kindSwitch, hkind, if_true, switchKind0, SwitchState.init, hm,
    npubShort_ok _ hlen]
  refine ⟨_, rfl, rfl, rfl, ?_⟩
  intro hno
  simp [mediaScan_no_match env _ _ hno]

/-- Witness for C4: a kind-0 event whose content has no URL. -/
theorem grabData_kind0_witness :
    Call.relaysForPubkey samplePubKey ∈
      (grabData (sampleEnv (sampleFetch (sampleEvent 0 [] "hello") [] notFound))
        0 "code" false).calls ∧
    ∃ d, (grabData (sampleEnv (sampleFetch (sampleEvent 0 [] "hello") [] notFound))
        0 "code" false).ret = .ok (some d, none) ∧
      d.content = "" ∧ d.image = "" ∧ d.video = "" ∧ d.videoType = "" := by
  obtain ⟨hc, d, hd, h1, _, h3⟩ :=
    grabData_kind0 (sampleEnv (sampleFetch (sampleEvent 0 [] "hello") [] notFound)) 0 "code"
      false (sampleEvent 0 [] "hello") [] rfl rfl (by decide)
  exact ⟨hc, d, hd, h1, h3 (by decide)⟩

/-! ## Coordinate encoding -/

/-- C5, as stated, fails: this kind-30023 event has a valid public key (every
sample encoder succeeds on it) and a "d" tag, and `naddrNaked` is empty. -/
theorem grabData_30023_naddr_empty :
    (sampleEncode "naddr1" samplePubKey []).1 ≠ "" ∧
    GetFirst (sampleEvent 30023 [["d", "article"]] "text").Tags ["d", ""] =
      some ["d", "article"] ∧
    ∃ d, (grabData (sampleEnv (sampleFetch (sampleEvent 30023 [["d", "article"]] "text")
        [] notFound)) 0 "code" false).ret = .ok (some d, none) ∧
      d.event.Kind = 30023 ∧ d.naddr = "" ∧ d.naddrNaked = "" :=
  ⟨by decide, by decide, _, rfl, by decide, by decide, by decide⟩

/-- C5, amended: for every event whose kind is in 30000..39999 and whose public
key is valid (it encodes to at least 8 characters, and its coordinate encodings
are non-empty), `grabData` returns a `Data` such that: without a "d" tag (a tag
of at least two elements whose first is "d") `naddr` and `naddrNaked` are
empty; with one, and a kind other than 30023 and 30024, `naddrNaked` is the
coordinate encoding of (public key, kind, value of the first "d" tag) without
relay hints, which is non-empty, and `naddr` is the one with `relaysForNip19`. -/
theorem grabData_naddr {σ : Type} (env : Env σ) (w : σ) (code : String)
    (isProfileSitemap : Bool) (event : Event) (relays : List String)
    (hfetch : (env.getEvent w code []).1 = ⟨some event, relays, none⟩)
    (hlo : 30000 ≤ event.Kind) (hhi : event.Kind < 40000)
    (hlen : 8 ≤ (env.EncodePublicKey event.PubKey).1.length)
    (hvalid : ∀ identifier hints,
      (env.EncodeEntity event.PubKey event.Kind identifier hints).1 ≠ "") :
    ∃ d, (grabData env w code isProfileSitemap).ret = .ok (some d, none) ∧
      (GetFirst event.Tags ["d", ""] = none → d.naddr = "" ∧ d.naddrNaked = "") ∧
      (event.Kind ≠ 30023 → event.Kind ≠ 30024 →
        ∀ tag, GetFirst event.Tags ["d", ""] = some tag →
          d.naddrNaked = (env.EncodeEntity event.PubKey event.Kind tag.Value []).1 ∧
          d.naddrNaked ≠ "" ∧
          d.naddr = (env.EncodeEntity event.PubKey event.Kind tag.Value
            (relaysForNip19Loop 0 relays [])).1) := by
  rw [grabData_of_fetch env w code isProfileSitemap event relays hfetch]
  have h0 : event.Kind ≠ 0 := by omega
  have h6 : event.Kind ≠ 6 := by omega
  have h1063 : event.Kind ≠ 1063 := by omega
  have hm : ∀ km, mediaOf env event km =
      .ok (mediaScan env (env.urlMatcher event.Content) ⟨"", "", ""⟩) := by
    intro km; simp [mediaOf, h1063]
  by_cases hn : event.Kind = 1 ∨ event.Kind = 7 ∨ event.Kind = 30023 ∨ event.Kind = 30024
  · have hn2 : event.Kind = 30023 ∨ event.Kind = 30024 := by omega
    unfold grabDataFetched
    simp only [kindSwitch, h0, if_false, hn, if_true, switchNote, SwitchState.init, hm,
      npubShort_ok _ hlen]
    refine ⟨_, rfl, fun _ => ⟨rfl, rfl⟩, ?_⟩
    intro h1 h2
    rcases hn2 with h | h
    · exact absurd h h1
    · exact absurd h h2
  · have hrange : 30000 ≤ event.Kind ∧ event.Kind < 40000 := ⟨hlo, hhi⟩
    cases hd : GetFirst event.Tags ["d", ""] with
    | none =>
      unfold grabDataFetched
      simp only [kindSwitch, h0, h6, h1063, if_false, hn, switchDefault, hrange, and_self,
        if_true, hd, SwitchState.init, hm, npubShort_ok _ hlen]
      exact ⟨_, rfl, fun _ => ⟨rfl, rfl⟩, fun _ _ tag ht => by simp at ht⟩
    | some t =>
      unfold grabDataFetched
      simp only [kindSwitch, h0, h6, h1063, if_false, hn, switchDefault, hrange, and_self,
        if_true, hd, SwitchState.init, hm, npubShort_ok _ hlen]
      refine ⟨_, rfl, fun h => by simp at h, ?_⟩
      intro _ _ tag ht
      have : t = tag := by simpa using ht
      subst this
      exact ⟨rfl, hvalid _ _, rfl⟩

/-- The sample coordinate encoding of the sample key is never empty. -/
theorem sampleEncode_naddr_ne (hints : List String) :
    (sampleEncode "naddr1" samplePubKey hints).1 ≠ "" := by
  have hk : samplePubKey.length = 64 := by decide
  simp only [sampleEncode, hk, if_true]
  intro h
  have hl := congrArg String.length h
  have h6 : "naddr1".length = 6 := by decide
  simp only [String.length_append, h6] at hl
  have h0 : "".length = 0 := by decide
  omega

/-- Witness for C5: a kind-30001 event with a "d" tag. -/
theorem grabData_naddr_witness :
    ∃ d, (grabData (sampleEnv (sampleFetch (sampleEvent 30001 [["d", "list"]] "")
        ["wss://good.relay/"] notFound)) 0 "code" false).ret = .ok (some d, none) ∧
      d.naddrNaked = (sampleEncode "naddr1" samplePubKey []).1 ∧ d.naddrNaked ≠ "" := by
  obtain ⟨d, hd, _, h⟩ :=
    grabData_naddr (sampleEnv (sampleFetch (sampleEvent 30001 [["d", "list"]] "")
      ["wss://good.relay/"] notFound)) 0 "code" false
      (sampleEvent 30001 [["d", "list"]] "") ["wss://good.relay/"] rfl (by decide)
      (by decide) (by decide) (fun _ hints => sampleEncode_naddr_ne hints)
  obtain ⟨h1, h2, _⟩ := h (by decide) (by decide) ["d", "list"] (by decide)
  exact ⟨d, hd, h1, h2⟩

/-! ## The shape of a returned `Data` -/

/-- Outside kind 0 the switch calls no collaborator. -/
theorem kindSwitch_world {σ : Type} (env : Env σ) (w : σ) (event : Event)
    (relaysForNip19 : List String) (isProfileSitemap : Bool) (sw : SwitchState σ)
    (hkind : event.Kind ≠ 0)
    (h : kindSwitch env w event none relaysForNip19 isProfileSitemap = .ok sw) :
    sw.world = w ∧ sw.calls = [] := by
  unfold kindSwitch at h
  simp only [hkind, if_false] at h
  split at h
  · cases h; exact ⟨rfl, rfl⟩
  · split at h
    · obtain ⟨sw2, h2, _, hw, hc, _⟩ := switchRepost_ok env w event
      rw [h2] at h; cases h; exact ⟨hw, hc⟩
    · split at h
      · cases h; exact ⟨rfl, rfl⟩
      · cases h
        unfold switchDefault
        split
        · split <;> exact ⟨rfl, rfl⟩
        · exact ⟨rfl, rfl⟩

/-- The metadata map after the switch: filled from the tags for kind 1063, nil
for every other kind. -/
theorem kindSwitch_kind1063Metadata {σ : Type} (env : Env σ) (w : σ) (event : Event)
    (relaysForNip19 : List String) (isProfileSitemap : Bool) (sw : SwitchState σ)
    (h : kindSwitch env w event none relaysForNip19 isProfileSitemap = .ok sw) :
    sw.kind1063Metadata =
      if event.Kind = 1063 then some (extractTags event.Tags GoMap.empty) else none := by
  unfold kindSwitch at h
  split at h
  · rename_i h0; cases h; simp [switchKind0, SwitchState.init, h0]
  · split at h
    · rename_i hn
      have : event.Kind ≠ 1063 := by omega
      cases h; simp [switchNote, SwitchState.init, this]
    · split at h
      · rename_i h6
        obtain ⟨sw2, h2, _, _, _, hk⟩ := switchRepost_ok env w event
        rw [h2] at h; cases h; simp [hk, h6]
      · split at h
        · rename_i hk; cases h; simp [switchFileMetadata, hk]
        · rename_i hk; cases h
          unfold switchDefault
          split
          · split <;> simp [SwitchState.init, hk]
          · simp [SwitchState.init, hk]

/-- A returned `Data` is assembled from the results of the switch, of the
author fetch, of the media block and of the short form. -/
theorem grabDataFetched_ret {σ : Type} (env : Env σ) (w : σ) (code : String)
    (isProfileSitemap : Bool) (event : Event) (relays : List String) (d : Data)
    (h : (grabDataFetched env w code isProfileSitemap event relays none).ret =
      .ok (some d, none)) :
    ∃ sw media short,
      kindSwitch env w event none (relaysForNip19Loop 0 relays []) isProfileSitemap =
        .ok sw ∧
      mediaOf env event sw.kind1063Metadata = .ok media ∧
      npubShort (env.EncodePublicKey event.PubKey).1 = .ok short ∧
      d.event = event ∧
      d.npub = (env.EncodePublicKey event.PubKey).1 ∧ d.npubShort = short ∧
      d.image = media.image ∧ d.video = media.video ∧ d.videoType = media.videoType ∧
      d.templateId = sw.templateId ∧ d.content = sw.content ∧
      d.parentLink = sw.parentLink ∧ d.naddr = sw.naddr ∧ d.naddrNaked = sw.naddrNaked ∧
      d.kind1063Metadata = sw.kind1063Metadata ∧
      d.relays = sanitizeRelays env.excludedRelays env.trimProtocol relays ∧
      d.authorLong = (authorNames env
        (refetchAuthor env sw.world event (env.EncodePublicKey event.PubKey).1
          (relaysForNip19Loop 0 relays [])).author
        (env.EncodePublicKey event.PubKey).1 short).authorLong ∧
      d.authorShort = (authorNames env
        (refetchAuthor env sw.world event (env.EncodePublicKey event.PubKey).1
          (relaysForNip19Loop 0 relays [])).author
        (env.EncodePublicKey event.PubKey).1 short).authorShort := by
  simp only [grabDataFetched] at h
  cases hsw : kindSwitch env w event none (relaysForNip19Loop 0 relays [])
      isProfileSitemap with
  | error a => simp [hsw] at h
  | ok sw =>
    simp only [hsw] at h
    cases hr : sw.returned with
    | some e => simp [hr] at h
    | none =>
      simp only [hr] at h
      cases hm : mediaOf env event sw.kind1063Metadata with
      | error a => simp [hm] at h
      | ok media =>
        simp only [hm] at h
        cases hs : npubShort (env.EncodePublicKey event.PubKey).1 with
        | error a => simp [hs] at h
        | ok short =>
          simp only [hs] at h
          have hd : some d = some _ := congrArg Prod.fst (Except.ok.inj h).symm
          have hd2 := (Option.some.inj hd)
          subst hd2
          exact ⟨sw, media, short, rfl, hm, rfl, rfl, rfl, rfl, rfl, rfl, rfl, rfl, rfl,
            rfl, rfl, rfl, rfl, rfl, rfl, rfl⟩

/-! ## Short form and author display strings -/

/-- C6: the sample public key "zz" fails to encode, which yields the empty
string, and the short form of the empty string panics (slice bounds out of
range), in the expression of line 270 and in `EnhancedEvent.NpubShort` alike;
so does the short form of a string of 7 characters. -/
theorem npubShort_empty_panics :
    ((sampleEnv (sampleFetch (sampleEvent 1 [] "") [] notFound)).EncodePublicKey "zz").1 = "" ∧
    npubShort "" = .error .sliceBoundsOutOfRange ∧
    EnhancedEvent.NpubShort (sampleEnv (sampleFetch (sampleEvent 1 [] "") [] notFound))
      ⟨{ sampleEvent 1 [] "" with PubKey := "zz" }, []⟩ = .error .sliceBoundsOutOfRange ∧
    npubShort "npub1ab" = .error .sliceBoundsOutOfRange :=
  ⟨rfl, rfl, rfl, rfl⟩

/-- The author seen by lines 275-280 of a run that got past the switch. -/
theorem refetchAuthor_author {σ : Type} (env : Env σ) (w : σ) (code : String)
    (isProfileSitemap : Bool) (event : Event) (relays : List String) (sw : SwitchState σ)
    (h : kindSwitch env (env.getEvent w code []).2 event none
      (relaysForNip19Loop 0 relays []) isProfileSitemap = .ok sw) :
    (refetchAuthor env sw.world event (env.EncodePublicKey event.PubKey).1
      (relaysForNip19Loop 0 relays [])).author = authorAt env w code event relays := by
  unfold refetchAuthor authorAt
  by_cases hk : event.Kind = 0
  · simp [hk]
  · obtain ⟨hw, _⟩ := kindSwitch_world env _ event _ isProfileSitemap sw hk h
    simp [hk, hw]

/-- C7, as stated, fails: the author content "{}" decodes with an empty name,
and `authorLong` is " (" + npub + ")", not npub; likewise `authorShort`. -/
theorem grabData_empty_name_formatted :
    sampleJsonUnmarshal "\x7b\x7d" = (⟨"", []⟩, none) ∧
    ∃ d, (grabData (sampleEnv (sampleFetch (sampleEvent 1 [] "hello") []
        ⟨some (sampleEvent 0 [] "\x7b\x7d"), [], none⟩)) 0 "code" false).ret =
        .ok (some d, none) ∧
      d.authorLong = " (" ++ d.npub ++ ")" ∧ d.authorLong ≠ d.npub ∧
      d.authorShort = " (" ++ d.npubShort ++ ")" ∧ d.authorShort ≠ d.npubShort :=
  ⟨by decide, _, rfl, by decide, by decide, by decide, by decide⟩

/-- C7, amended: in every `Data` returned by `grabData`, `authorLong` and
`authorShort` are `Name + " (" + npub + ")"` and `Name + " (" + npubShort + ")"`
when the author event is present and its content decodes as profile metadata,
whatever the decoded name; they are the bare `npub` and `npubShort` when the
author is nil or its content fails to decode. -/
theorem grabData_author_strings {σ : Type} (env : Env σ) (w : σ) (code : String)
    (isProfileSitemap : Bool) (event : Event) (relays : List String) (d : Data)
    (hfetch : (env.getEvent w code []).1 = ⟨some event, relays, none⟩)
    (hret : (grabData env w code isProfileSitemap).ret = .ok (some d, none)) :
    (∀ a, authorAt env w code event relays = some a →
      (env.jsonUnmarshal a.Content).2 = none →
      d.authorLong = (env.jsonUnmarshal a.Content).1.Name ++ " (" ++ d.npub ++ ")" ∧
      d.authorShort = (env.jsonUnmarshal a.Content).1.Name ++ " (" ++ d.npubShort ++ ")") ∧
    (∀ a, authorAt env w code event relays = some a →
      (env.jsonUnmarshal a.Content).2 ≠ none →
      d.authorLong = d.npub ∧ d.authorShort = d.npubShort) ∧
    (authorAt env w code event relays = none →
      d.authorLong = d.npub ∧ d.authorShort = d.npubShort) := by
  rw [grabData_of_fetch env w code isProfileSitemap event relays hfetch] at hret
  obtain ⟨sw, media, short, hsw, _, _, _, hnpub, hshort, _, _, _, _, _, _, _, _, _, _,
    hlong, hsh⟩ := grabDataFetched_ret env _ code isProfileSitemap event relays d hret
  rw [refetchAuthor_author env w code isProfileSitemap event relays sw hsw] at hlong hsh
  rw [hlong, hsh, hnpub, hshort]
  refine ⟨?_, ?_, ?_⟩
  · intro a ha hdec
    simp [authorNames, ha, hdec, sprintfNameCode]
  · intro a ha hdec
    cases he : (env.jsonUnmarshal a.Content).2 with
    | none => exact absurd he hdec
    | some e => simp [authorNames, ha, he]
  · intro ha
    simp [authorNames, ha]

/-- Witness for C7: a note whose author event decodes to the name "alice". -/
theorem grabData_author_strings_witness :
    ∃ d, (grabData (sampleEnv (sampleFetch (sampleEvent 1 [] "hello") []
        ⟨some (sampleEvent 0 [] "\x7b\"name\":\"alice\"\x7d"), [], none⟩)) 0 "code"
        false).ret = .ok (some d, none) ∧
      d.authorLong = "alice (" ++ d.npub ++ ")" ∧
      d.authorShort = "alice (" ++ d.npubShort ++ ")" :=
  ⟨_, rfl,
    ((grabData_author_strings (sampleEnv (sampleFetch (sampleEvent 1 [] "hello") []
        ⟨some (sampleEvent 0 [] "\x7b\"name\":\"alice\"\x7d"), [], none⟩)) 0 "code" false
      (sampleEvent 1 [] "hello") [] _ rfl rfl).1
      (sampleEvent 0 [] "\x7b\"name\":\"alice\"\x7d") rfl rfl)⟩

/-! ## Media extraction from the content -/

/-- The image after the scan: the one already held, else the first URL that
matches the image matcher. -/
theorem mediaScan_image {σ : Type} (env : Env σ) (urls : List String) (m : Media)
    (hne : ∀ u ∈ urls, u ≠ "") :
    (mediaScan env urls m).image =
      if m.image = "" then (urls.find? env.imageExtensionMatcher).getD "" else m.image := by
  induction urls generalizing m with
  | nil => simp only [mediaScan, List.find?_nil, Option.getD_none]; split <;> simp_all
  | cons u rest ih =>
    have hu : u ≠ "" := hne u (List.mem_cons_self _ _)
    have hrest : ∀ v ∈ rest, v ≠ "" := fun v hv => hne v (List.mem_cons_of_mem _ hv)
    by_cases hi : env.imageExtensionMatcher u = true
    · by_cases hm : m.image = ""
      · simp [mediaScan, hi, hm, ih _ hrest, hu]
      · simp [mediaScan, hi, hm, ih _ hrest]
    · by_cases hv : env.videoExtensionMatcher u = true
      · by_cases hm : m.video = ""
        · simp [mediaScan, hi, hv, hm, ih _ hrest]
        · simp [mediaScan, hi, hv, hm, ih _ hrest]
      · simp [mediaScan, hi, hv, ih _ hrest]

/-- The video after the scan: the one already held, else the first URL that
matches the video matcher and not the image matcher. -/
theorem mediaScan_video {σ : Type} (env : Env σ) (urls : List String) (m : Media)
    (hne : ∀ u ∈ urls, u ≠ "") :
    (mediaScan env urls m).video =
      if m.video = "" then
        (urls.find? (fun u => !env.imageExtensionMatcher u &&
          env.videoExtensionMatcher u)).getD ""
      else m.video := by
  induction urls generalizing m with
  | nil => simp only [mediaScan, List.find?_nil, Option.getD_none]; split <;> simp_all
  | cons u rest ih =>
    have hu : u ≠ "" := hne u (List.mem_cons_self _ _)
    have hrest : ∀ v ∈ rest, v ≠ "" := fun v hv => hne v (List.mem_cons_of_mem _ hv)
    by_cases hi : env.imageExtensionMatcher u = true
    · by_cases hm : m.image = ""
      · simp [mediaScan, hi, hm, ih _ hrest]
      · simp [mediaScan, hi, hm, ih _ hrest]
    · by_cases hv : env.videoExtensionMatcher u = true
      · by_cases hm : m.video = ""
        · simp [mediaScan, hi, hv, hm, ih _ hrest, hu]
        · simp [mediaScan, hi, hv, hm, ih _ hrest]
      · simp [mediaScan, hi, hv, ih _ hrest]

/-- C8, as stated, fails: the only URL of this kind-1 content matches the video
matcher and the image matcher, and `video` is empty: the URL is taken as the
image only. -/
theorem grabData_video_shadowed_by_image :
    sampleUrlMatcher "https://example.com/clip.mp4?thumb=.png" =
      ["https://example.com/clip.mp4?thumb=.png"] ∧
    sampleExtensionMatcher [".mp4", ".mov", ".webm"]
      "https://example.com/clip.mp4?thumb=.png" = true ∧
    ∃ d, (grabData (sampleEnv (sampleFetch
        (sampleEvent 1 [] "https://example.com/clip.mp4?thumb=.png") [] notFound))
        0 "code" false).ret = .ok (some d, none) ∧
      d.event.Kind = 1 ∧ d.video = "" ∧
      d.image = "https://example.com/clip.mp4?thumb=.png" :=
  ⟨by decide, by decide, _, rfl, by decide, by decide, by decide⟩

/-- C8, amended: in every `Data` returned for an event whose kind is not 1063,
over the ordered list of (non-empty) URLs matched in the content, `image` is
the first URL that matches the image matcher, empty if none, and `video` is the
first URL that matches the video matcher and does not match the image matcher,
empty if none. -/
theorem grabData_media_scan {σ : Type} (env : Env σ) (w : σ) (code : String)
    (isProfileSitemap : Bool) (event : Event) (relays : List String) (d : Data)
    (hfetch : (env.getEvent w code []).1 = ⟨some event, relays, none⟩)
    (hret : (grabData env w code isProfileSitemap).ret = .ok (some d, none))
    (hkind : event.Kind ≠ 1063)
    (hne : ∀ u ∈ env.urlMatcher event.Content, u ≠ "") :
    d.image = ((env.urlMatcher event.Content).find? env.imageExtensionMatcher).getD "" ∧
    d.video = ((env.urlMatcher event.Content).find?
      (fun u => !env.imageExtensionMatcher u && env.videoExtensionMatcher u)).getD "" := by
  rw [grabData_of_fetch env w code isProfileSitemap event relays hfetch] at hret
  obtain ⟨sw, media, short, _, hmedia, _, _, _, _, himg, hvid, _⟩ :=
    grabDataFetched_ret env _ code isProfileSitemap event relays d hret
  simp only [mediaOf, hkind, if_false] at hmedia
  have hm := (Except.ok.inj hmedia).symm
  subst hm
  rw [himg, hvid, mediaScan_image env _ _ hne, mediaScan_video env _ _ hne]
  simp

/-- Witness for C8: a note with an image URL followed by two video URLs. -/
theorem grabData_media_scan_witness :
    ∃ d, (grabData (sampleEnv (sampleFetch (sampleEvent 1 []
        "see https://example.com/a.png https://example.com/b.mov https://example.com/c.mp4")
        [] notFound)) 0 "code" false).ret = .ok (some d, none) ∧
      d.image = "https://example.com/a.png" ∧ d.video = "https://example.com/b.mov" := by
  refine ⟨_, rfl, ?_⟩
  have h := grabData_media_scan (sampleEnv (sampleFetch (sampleEvent 1 []
      "see https://example.com/a.png https://example.com/b.mov https://example.com/c.mp4")
      [] notFound)) 0 "code" false (sampleEvent 1 []
      "see https://example.com/a.png https://example.com/b.mov https://example.com/c.mp4")
      [] _ rfl rfl (by decide) (by decide)
  exact ⟨h.1.trans (by decide), h.2.trans (by decide)⟩

/-! ## File-metadata events -/

/-- C9: for this kind-1063 event, whose "m" tag value "video" has no "/", the
media classification indexes `strings.Split(m, "/")` (one element) at 1 and
panics; `grabData` ends in that panic. -/
theorem grabData_video_without_slash_panics :
    stringsSplit "video" '/' = ["video"] ∧
    mediaFileMetadata (some (extractTags [["m", "video"]] GoMap.empty)) =
      .error .indexOutOfRange ∧
    (grabData (sampleEnv (sampleFetch (sampleEvent 1063 [["m", "video"]] "") [] notFound))
      0 "code" false).ret = .error .indexOutOfRange :=
  ⟨by decide, rfl, rfl⟩

/-- Dropping the entries of another key does not change a lookup. -/
theorem lookup_filter_ne (es : List (String × String)) (k k' : String) (h : k' ≠ k) :
    (es.filter (fun p => p.1 != k)).lookup k' = es.lookup k' := by
  induction es with
  | nil => rfl
  | cons e rest ih =>
    obtain ⟨a, b⟩ := e
    by_cases ha : a = k
    · subst ha
      have hk : (k' == a) = false := by simpa using h
      simp [List.filter_cons, List.lookup_cons, hk, ih]
    · have hf : (a != k) = true := by simpa using ha
      simp only [List.filter_cons, hf, if_true, List.lookup_cons, ih]

/-- Lookup after an assignment. -/
theorem GoMap.find_set (m : GoMap) (k v k' : String) :
    (m.set k v).find k' = if k' = k then some v else m.find k' := by
  by_cases h : k' = k
  · subst h
    simp [GoMap.find, GoMap.set, List.lookup_cons]
  · have hk : (k' == k) = false := by simpa using h
    simp [GoMap.find, GoMap.set, List.lookup_cons, hk, h, lookup_filter_ne _ _ _ h]

/-- The key scan stores the value exactly when the key is among the keys. -/
theorem extractKey_eq (key value : String) (m : GoMap) (keys : List String) :
    extractKey key value m keys = if key ∈ keys then m.set key value else m := by
  induction keys with
  | nil => simp [extractKey]
  | cons k ks ih =>
    by_cases h : key = k
    · simp [extractKey, h]
    · simp [extractKey, h, ih]

/-- The keys of the map after the loop over the tags. -/
theorem extractTags_find (tags : Tags) (m : GoMap) (k : String) :
    ((extractTags tags m).find k).isSome ↔
      (m.find k).isSome ∨ (k ∈ keysToExtract ∧ ∃ value, [k, value] ∈ tags) := by
  induction tags generalizing m with
  | nil => simp [extractTags]
  | cons tag rest ih =>
    match tag with
    | [] => simp [extractTags, ih]
    | [a] => simp [extractTags, ih]
    | a :: b :: c :: r => simp [extractTags, ih]
    | [key, value] =>
      simp only [extractTags, ih, extractKey_eq]
      by_cases hk : key ∈ keysToExtract
      · simp only [hk, if_true, GoMap.find_set]
        by_cases he : k = key
        · subst he
          simp [hk]
        · simp [he]
      · simp only [hk, if_false]
        by_cases he : k = key
        · subst he
          simp [hk]
        · simp [he]

/-- C10: in every `Data` returned for a kind-1063 event, `kind1063Metadata` is
a map in which a key is present if and only if it is one of the 13 keys of
`keysToExtract` and the event has a tag of exactly two elements whose first
element is that key. -/
theorem grabData_kind1063Metadata_keys {σ : Type} (env : Env σ) (w : σ) (code : String)
    (isProfileSitemap : Bool) (event : Event) (relays : List String) (d : Data)
    (hfetch : (env.getEvent w code []).1 = ⟨some event, relays, none⟩)
    (hret : (grabData env w code isProfileSitemap).ret = .ok (some d, none))
    (hkind : event.Kind = 1063) :
    keysToExtract = ["url", "m", "aes-256-gcm", "x", "size", "dim", "magnet", "i",
      "blurhash", "thumb", "image", "summary", "alt"] ∧
    ∃ m, d.kind1063Metadata = some m ∧
      ∀ k, (m.find k).isSome ↔
        (k ∈ keysToExtract ∧ ∃ value, [k, value] ∈ event.Tags) := by
  rw [grabData_of_fetch env w code isProfileSitemap event relays hfetch] at hret
  obtain ⟨sw, media, short, hsw, _, _, _, _, _, _, _, _, _, _, _, _, _, hkm, _⟩ :=
    grabDataFetched_ret env _ code isProfileSitemap event relays d hret
  rw [kindSwitch_kind1063Metadata env _ event _ isProfileSitemap sw hsw] at hkm
  simp only [hkind, if_true] at hkm
  refine ⟨rfl, _, hkm, ?_⟩
  intro k
  rw [extractTags_find]
  simp [GoMap.find, GoMap.empty]

/-- Witness for C10: a file-metadata event with an allow-listed "url" tag, a
three-element "m" tag and a two-element tag with another key; only "url" is
extracted. -/
theorem grabData_kind1063Metadata_keys_witness :
    ∃ d m, (grabData (sampleEnv (sampleFetch (sampleEvent 1063
        [["url", "https://example.com/f.png"], ["m", "image/png", "x"], ["p", "q"]] "")
        [] notFound)) 0 "code" false).ret = .ok (some d, none) ∧
      d.kind1063Metadata = some m ∧
      (m.find "url").isSome = true ∧ (m.find "m").isSome = false ∧
      (m.find "p").isSome = false := by
  have h := grabData_kind1063Metadata_keys (sampleEnv (sampleFetch (sampleEvent 1063
      [["url", "https://example.com/f.png"], ["m", "image/png", "x"], ["p", "q"]] "")
      [] notFound)) 0 "code" false (sampleEvent 1063
      [["url", "https://example.com/f.png"], ["m", "image/png", "x"], ["p", "q"]] "")
      [] _ rfl rfl rfl
  obtain ⟨_, m, hm, hk⟩ := h
  refine ⟨_, m, rfl, hm, ?_, ?_, ?_⟩
  · exact (hk "url").2 ⟨by decide, "https://example.com/f.png", by decide⟩
  · cases hx : (m.find "m").isSome with
    | false => rfl
    | true =>
      obtain ⟨_, value, hv⟩ := (hk "m").1 hx
      simp [sampleEvent] at hv
  · cases hx : (m.find "p").isSome with
    | false => rfl
    | true =>
      exact absurd ((hk "p").1 hx).1 (by decide)

/-! ## Relay hints -/

/-- The hint loop, started at index `i ≤ 2`, appends the first `3 - i`
relays. -/
theorem relaysForNip19Loop_eq (i : Nat) (relays acc : List String) (hi : i ≤ 2) :
    relaysForNip19Loop i relays acc = acc ++ relays.take (3 - i) := by
  induction relays generalizing i acc with
  | nil => simp [relaysForNip19Loop]
  | cons relay rest ih =>
    by_cases h2 : i = 2
    · subst h2
      simp [relaysForNip19Loop]
    · have hlt : i + 1 ≤ 2 := by omega
      have h3 : 3 - i = (3 - (i + 1)) + 1 := by omega
      simp only [relaysForNip19Loop, h2, if_false, ih (i + 1) _ hlt]
      rw [h3, List.take_succ_cons]
      simp

/-- The calls of a run that returned: the first fetch, the calls of the
switch, then those of the author fetch. -/
theorem grabDataFetched_calls {σ : Type} (env : Env σ) (w : σ) (code : String)
    (isProfileSitemap : Bool) (event : Event) (relays : List String) (d : Data)
    (h : (grabDataFetched env w code isProfileSitemap event relays none).ret =
      .ok (some d, none)) :
    ∃ sw,
      kindSwitch env w event none (relaysForNip19Loop 0 relays []) isProfileSitemap =
        .ok sw ∧
      d.nevent = (env.EncodeEvent event.ID (relaysForNip19Loop 0 relays [])
        event.PubKey).1 ∧
      d.neventNaked = (env.EncodeEvent event.ID [] event.PubKey).1 ∧
      (grabDataFetched env w code isProfileSitemap event relays none).calls =
        Call.getEvent code [] :: (sw.calls ++
          (refetchAuthor env sw.world event (env.EncodePublicKey event.PubKey).1
            (relaysForNip19Loop 0 relays [])).calls) := by
  simp only [grabDataFetched] at h ⊢
  cases hsw : kindSwitch env w event none (relaysForNip19Loop 0 relays [])
      isProfileSitemap with
  | error a => simp [hsw] at h
  | ok sw =>
    simp only [hsw] at h ⊢
    cases hr : sw.returned with
    | some e => simp [hr] at h
    | none =>
      simp only [hr] at h ⊢
      cases hm : mediaOf env event sw.kind1063Metadata with
      | error a => simp [hm] at h
      | ok media =>
        simp only [hm] at h ⊢
        cases hs : npubShort (env.EncodePublicKey event.PubKey).1 with
        | error a => simp [hs] at h
        | ok short =>
          simp only [hs] at h ⊢
          have hd : some d = some _ := congrArg Prod.fst (Except.ok.inj h).symm
          have hd2 := (Option.some.inj hd)
          subst hd2
          exact ⟨sw, rfl, rfl, rfl, rfl⟩

/-- C14: the hint list built on lines 99-105 is the first `min 3 n` relays of
the first fetch, in their order; it is the list given to the hinted event
encoding, to the author re-fetch (for a kind other than 0) and to the hinted
coordinate encoding (in the default branch, when a "d" tag is found). -/
theorem grabData_relay_hints {σ : Type} (env : Env σ) (w : σ) (code : String)
    (isProfileSitemap : Bool) (event : Event) (relays : List String) (d : Data)
    (hfetch : (env.getEvent w code []).1 = ⟨some event, relays, none⟩)
    (hret : (grabData env w code isProfileSitemap).ret = .ok (some d, none)) :
    relaysForNip19Loop 0 relays [] = relays.take 3 ∧
    (relays.take 3).length = min 3 relays.length ∧
    d.nevent = (env.EncodeEvent event.ID (relays.take 3) event.PubKey).1 ∧
    (event.Kind ≠ 0 →
      Call.getEvent d.npub (relays.take 3) ∈ (grabData env w code isProfileSitemap).calls) ∧
    (30000 ≤ event.Kind → event.Kind < 40000 → event.Kind ≠ 30023 → event.Kind ≠ 30024 →
      ∀ tag, GetFirst event.Tags ["d", ""] = some tag →
        d.naddr = (env.EncodeEntity event.PubKey event.Kind tag.Value (relays.take 3)).1) := by
  have hloop : relaysForNip19Loop 0 relays [] = relays.take 3 := by
    simpa using relaysForNip19Loop_eq 0 relays [] (by omega)
  rw [grabData_of_fetch env w code isProfileSitemap event relays hfetch] at hret ⊢
  obtain ⟨sw, hsw, hnev, _, hcalls⟩ :=
    grabDataFetched_calls env _ code isProfileSitemap event relays d hret
  obtain ⟨sw2, _, _, hsw2, _, _, _, hnpub, _, _, _, _, _, _, _, hnaddr, _⟩ :=
    grabDataFetched_ret env _ code isProfileSitemap event relays d hret
  have hsame : sw2 = sw := by
    rw [hsw] at hsw2; exact (Except.ok.inj hsw2).symm
  subst hsame
  rw [hloop] at hnev hcalls hsw
  refine ⟨hloop, List.length_take _ _, hnev, ?_, ?_⟩
  · intro hk
    rw [hcalls, hnpub]
    simp [refetchAuthor, hk]
  · intro hlo hhi h23 h24 tag htag
    have h0 : event.Kind ≠ 0 := by omega
    have h6 : event.Kind ≠ 6 := by omega
    have h1063 : event.Kind ≠ 1063 := by omega
    have hn : ¬ (event.Kind = 1 ∨ event.Kind = 7 ∨ event.Kind = 30023 ∨
        event.Kind = 30024) := by omega
    have hrange : 30000 ≤ event.Kind ∧ event.Kind < 40000 := ⟨hlo, hhi⟩
    simp only [kindSwitch, h0, h6, h1063, hn, if_false, switchDefault, hrange, and_self,
      if_true, htag] at hsw
    have hsw3 := (Except.ok.inj hsw).symm
    subst hsw3
    rw [hnaddr]

/-- Witness for C14: a note fetched with four relays. -/
theorem grabData_relay_hints_witness :
    ∃ d, (grabData (sampleEnv (sampleFetch (sampleEvent 1 [] "hello")
        ["wss://a/", "wss://b/", "wss://c/", "wss://d/"] notFound)) 0 "code" false).ret =
        .ok (some d, none) ∧
      relaysForNip19Loop 0 ["wss://a/", "wss://b/", "wss://c/", "wss://d/"] [] =
        ["wss://a/", "wss://b/", "wss://c/"] ∧
      d.nevent = (sampleEncode "nevent1" sampleId ["wss://a/", "wss://b/", "wss://c/"]).1 ∧
      Call.getEvent d.npub ["wss://a/", "wss://b/", "wss://c/"] ∈
        (grabData (sampleEnv (sampleFetch (sampleEvent 1 [] "hello")
          ["wss://a/", "wss://b/", "wss://c/", "wss://d/"] notFound)) 0 "code"
          false).calls := by
  refine ⟨_, rfl, ?_⟩
  obtain ⟨h1, _, h3, h4, _⟩ := grabData_relay_hints (sampleEnv (sampleFetch
    (sampleEvent 1 [] "hello") ["wss://a/", "wss://b/", "wss://c/", "wss://d/"] notFound))
    0 "code" false (sampleEvent 1 [] "hello")
    ["wss://a/", "wss://b/", "wss://c/", "wss://d/"] _ rfl rfl
  exact ⟨h1, h3, h4 (by decide)⟩

/-! ## The branches of the kind switch -/

/-- The switch on a kind of the note case. -/
theorem kindSwitch_note {σ : Type} (env : Env σ) (w : σ) (event : Event)
    (relaysForNip19 : List String) (isProfileSitemap : Bool)
    (hkind : event.Kind = 1 ∨ event.Kind = 7 ∨ event.Kind = 30023 ∨ event.Kind = 30024) :
    kindSwitch env w event none relaysForNip19 isProfileSitemap =
      .ok (switchNote env w event) := by
  have h0 : event.Kind ≠ 0 := by omega
  simp [kindSwitch, h0, hkind]

/-- The switch on kind 6. -/
theorem kindSwitch_repost {σ : Type} (env : Env σ) (w : σ) (event : Event)
    (relaysForNip19 : List String) (isProfileSitemap : Bool) (hkind : event.Kind = 6) :
    kindSwitch env w event none relaysForNip19 isProfileSitemap =
      switchRepost env w event := by
  simp [kindSwitch, hkind]

/-- The switch on kind 1063. -/
theorem kindSwitch_fileMetadata {σ : Type} (env : Env σ) (w : σ) (event : Event)
    (relaysForNip19 : List String) (isProfileSitemap : Bool) (hkind : event.Kind = 1063) :
    kindSwitch env w event none relaysForNip19 isProfileSitemap =
      .ok (switchFileMetadata env w event) := by
  simp [kindSwitch, hkind]

/-- The switch on kind 0. -/
theorem kindSwitch_kind0 {σ : Type} (env : Env σ) (w : σ) (event : Event)
    (relaysForNip19 : List String) (isProfileSitemap : Bool) (hkind : event.Kind = 0) :
    kindSwitch env w event none relaysForNip19 isProfileSitemap =
      .ok (switchKind0 env w event none isProfileSitemap) := by
  simp [kindSwitch, hkind]

/-- The switch on a kind of no case: the default branch. -/
theorem kindSwitch_default {σ : Type} (env : Env σ) (w : σ) (event : Event)
    (relaysForNip19 : List String) (isProfileSitemap : Bool)
    (h0 : event.Kind ≠ 0)
    (hn : ¬ (event.Kind = 1 ∨ event.Kind = 7 ∨ event.Kind = 30023 ∨ event.Kind = 30024))
    (h6 : event.Kind ≠ 6) (h1063 : event.Kind ≠ 1063) :
    kindSwitch env w event none relaysForNip19 isProfileSitemap =
      .ok (switchDefault env w event relaysForNip19) := by
  simp [kindSwitch, h0, hn, h6, h1063]

/-- The pattern `[key, ""]` selects the tags of at least two elements whose
first element is `key`. -/
theorem GetFirst_eq_find (tags : Tags) (key : String) :
    GetFirst tags [key, ""] = tags.find? (isKeyTag key) := by
  unfold GetFirst
  congr 1
  funext tag
  match tag with
  | [] => rfl
  | [a] => simp [tagStartsWith, isKeyTag]
  | a :: b :: rest => simp [tagStartsWith, isKeyTag, stringsStartsWith]

/-- A run whose media block and short form do not panic returns a `Data`. -/
theorem grabDataFetched_returns {σ : Type} (env : Env σ) (w : σ) (code : String)
    (isProfileSitemap : Bool) (event : Event) (relays : List String)
    (sw : SwitchState σ) (media : Media)
    (hsw : kindSwitch env w event none (relaysForNip19Loop 0 relays []) isProfileSitemap =
      .ok sw)
    (hm : mediaOf env event sw.kind1063Metadata = .ok media)
    (hlen : 8 ≤ (env.EncodePublicKey event.PubKey).1.length) :
    ∃ d, (grabDataFetched env w code isProfileSitemap event relays none).ret =
      .ok (some d, none) := by
  obtain ⟨sw2, hsw2, hr⟩ := kindSwitch_ok env w event (relaysForNip19Loop 0 relays [])
    isProfileSitemap
  have hsame : sw2 = sw := by
    rw [hsw] at hsw2; exact (Except.ok.inj hsw2).symm
  subst hsame
  simp only [grabDataFetched, hsw, hr, hm, npubShort_ok _ hlen]
  exact ⟨_, rfl⟩

/-- For a kind other than 1063 the media block does not panic. -/
theorem mediaOf_scan {σ : Type} (env : Env σ) (event : Event) (km : Option GoMap)
    (hkind : event.Kind ≠ 1063) :
    mediaOf env event km =
      .ok (mediaScan env (env.urlMatcher event.Content) ⟨"", "", ""⟩) := by
  simp [mediaOf, hkind]

/-! ## Notes and reposts -/

/-- C12: for every event of kind 1, 7, 30023 or 30024 whose public key encodes
to at least 8 characters, whatever its tags, its relays and the result of the
author re-fetch, `grabData` returns a `Data` with `templateId = Note` and with
`content` equal to the event content. -/
theorem grabData_note_content {σ : Type} (env : Env σ) (w : σ) (code : String)
    (isProfileSitemap : Bool) (event : Event) (relays : List String)
    (hfetch : (env.getEvent w code []).1 = ⟨some event, relays, none⟩)
    (hkind : event.Kind = 1 ∨ event.Kind = 7 ∨ event.Kind = 30023 ∨ event.Kind = 30024)
    (hlen : 8 ≤ (env.EncodePublicKey event.PubKey).1.length) :
    ∃ d, (grabData env w code isProfileSitemap).ret = .ok (some d, none) ∧
      d.templateId = env.Note ∧ d.content = event.Content := by
  rw [grabData_of_fetch env w code isProfileSitemap event relays hfetch]
  have h1063 : event.Kind ≠ 1063 := by omega
  have hsw := kindSwitch_note env (env.getEvent w code []).2 event
    (relaysForNip19Loop 0 relays []) isProfileSitemap hkind
  obtain ⟨d, hd⟩ := grabDataFetched_returns env _ code isProfileSitemap event relays _ _
    hsw (mediaOf_scan env event _ h1063) hlen
  obtain ⟨sw, _, _, hsw2, _, _, _, _, _, _, _, _, htpl, hcontent, _⟩ :=
    grabDataFetched_ret env _ code isProfileSitemap event relays d hd
  rw [hsw] at hsw2
  have hsw3 := Except.ok.inj hsw2
  subst hsw3
  exact ⟨d, hd, htpl, hcontent⟩

/-- Witness for C12: a kind-30023 event with tags, relays and a failed author
re-fetch. -/
theorem grabData_note_content_witness :
    ∃ d, (grabData (sampleEnv (sampleFetch
        (sampleEvent 30023 [["d", "article"], ["e", sampleId]] "# Title\nbody")
        ["wss://good.relay/"] notFound)) 0 "code" false).ret = .ok (some d, none) ∧
      d.templateId = 1 ∧ d.content = "# Title\nbody" :=
  grabData_note_content (sampleEnv (sampleFetch
    (sampleEvent 30023 [["d", "article"], ["e", sampleId]] "# Title\nbody")
    ["wss://good.relay/"] notFound)) 0 "code" false
    (sampleEvent 30023 [["d", "article"], ["e", sampleId]] "# Title\nbody")
    ["wss://good.relay/"] rfl (by decide) (by decide)

/-- C13: for every kind-6 event whose public key encodes to at least 8
characters, `grabData` returns a `Data` with `templateId = Note`; when the tags
hold a tag of at least two elements whose first is "e", `content` is
"Repost of nostr:" followed by the event encoding of the second element of the
first such tag, encoded with no relay hints and an empty author key; when they
hold none, `content` is empty. -/
theorem grabData_repost_content {σ : Type} (env : Env σ) (w : σ) (code : String)
    (isProfileSitemap : Bool) (event : Event) (relays : List String)
    (hfetch : (env.getEvent w code []).1 = ⟨some event, relays, none⟩)
    (hkind : event.Kind = 6)
    (hlen : 8 ≤ (env.EncodePublicKey event.PubKey).1.length) :
    ∃ d, (grabData env w code isProfileSitemap).ret = .ok (some d, none) ∧
      d.templateId = env.Note ∧
      (∀ tag, event.Tags.find? (isKeyTag "e") = some tag →
        ∃ id rest, tag = "e" :: id :: rest ∧
          d.content = "Repost of nostr:" ++ (env.EncodeEvent id [] "").1) ∧
      (event.Tags.find? (isKeyTag "e") = none → d.content = "") := by
  rw [grabData_of_fetch env w code isProfileSitemap event relays hfetch]
  have h1063 : event.Kind ≠ 1063 := by omega
  have hsw := kindSwitch_repost env (env.getEvent w code []).2 event
    (relaysForNip19Loop 0 relays []) isProfileSitemap hkind
  cases hfind : GetFirst event.Tags ["e", ""] with
  | none =>
    have hsw1 : switchRepost env (env.getEvent w code []).2 event =
        .ok { SwitchState.init (env.getEvent w code []).2 with templateId := env.Note } := by
      simp [switchRepost, hfind]
    rw [hsw1] at hsw
    obtain ⟨d, hd⟩ := grabDataFetched_returns env _ code isProfileSitemap event relays _ _
      hsw (mediaOf_scan env event _ h1063) hlen
    obtain ⟨sw, _, _, hsw2, _, _, _, _, _, _, _, _, htpl, hcontent, _⟩ :=
      grabDataFetched_ret env _ code isProfileSitemap event relays d hd
    rw [hsw] at hsw2
    have hsw3 := Except.ok.inj hsw2
    subst hsw3
    rw [GetFirst_eq_find] at hfind
    refine ⟨d, hd, htpl, ?_, fun _ => hcontent⟩
    intro tag htag
    rw [hfind] at htag
    cases htag
  | some reposted =>
    obtain ⟨id, rest, hshape⟩ := GetFirst_key _ _ _ hfind
    subst hshape
    have hsw1 : switchRepost env (env.getEvent w code []).2 event =
        .ok { SwitchState.init (env.getEvent w code []).2 with
              templateId := env.Note
              content := "Repost of nostr:" ++ (env.EncodeEvent id [] "").1 } := by
      simp [switchRepost, hfind, indexSlice]
    rw [hsw1] at hsw
    obtain ⟨d, hd⟩ := grabDataFetched_returns env _ code isProfileSitemap event relays _ _
      hsw (mediaOf_scan env event _ h1063) hlen
    obtain ⟨sw, _, _, hsw2, _, _, _, _, _, _, _, _, htpl, hcontent, _⟩ :=
      grabDataFetched_ret env _ code isProfileSitemap event relays d hd
    rw [hsw] at hsw2
    have hsw3 := Except.ok.inj hsw2
    subst hsw3
    rw [GetFirst_eq_find] at hfind
    refine ⟨d, hd, htpl, ?_, ?_⟩
    · intro tag htag
      rw [hfind] at htag
      have := Option.some.inj htag
      subst this
      exact ⟨id, rest, rfl, hcontent⟩
    · intro hnone
      rw [hfind] at hnone
      cases hnone

/-- Witness for C13: a repost whose first "e" tag of two elements comes after
a one-element "e" tag and before another "e" tag. -/
theorem grabData_repost_content_witness :
    ∃ d, (grabData (sampleEnv (sampleFetch
        (sampleEvent 6 [["e"], ["p", samplePubKey], ["e", sampleId, "wss://a/"],
          ["e", samplePubKey]] "") [] notFound)) 0 "code" false).ret =
        .ok (some d, none) ∧
      d.templateId = 1 ∧
      d.content = "Repost of nostr:" ++ (sampleEncode "nevent1" sampleId []).1 := by
  obtain ⟨d, hd, ht, hc, _⟩ := grabData_repost_content (sampleEnv (sampleFetch
    (sampleEvent 6 [["e"], ["p", samplePubKey], ["e", sampleId, "wss://a/"],
      ["e", samplePubKey]] "") [] notFound)) 0 "code" false
    (sampleEvent 6 [["e"], ["p", samplePubKey], ["e", sampleId, "wss://a/"],
      ["e", samplePubKey]] "") [] rfl rfl (by decide)
  obtain ⟨id, rest, hshape, hcontent⟩ := hc ["e", sampleId, "wss://a/"] (by decide)
  have hid : sampleId = id := by
    have := List.cons.inj hshape
    exact (List.cons.inj this.2).1
  subst hid
  exact ⟨d, hd, ht, hcontent⟩

/-! ## Parent link, template and metadata map by kind -/

/-- The parent link after the switch. -/
theorem kindSwitch_parentLink {σ : Type} (env : Env σ) (w : σ) (event : Event)
    (relaysForNip19 : List String) (isProfileSitemap : Bool) (sw : SwitchState σ)
    (h : kindSwitch env w event none relaysForNip19 isProfileSitemap = .ok sw) :
    sw.parentLink =
      if event.Kind = 1 ∨ event.Kind = 7 ∨ event.Kind = 30023 ∨ event.Kind = 30024 then
        (if env.getParentNevent event ≠ "" then
          env.replaceNostrURLsWithTags ("nostr:" ++ env.getParentNevent event)
        else "")
      else "" := by
  by_cases hn : event.Kind = 1 ∨ event.Kind = 7 ∨ event.Kind = 30023 ∨ event.Kind = 30024
  · rw [kindSwitch_note env w event _ _ hn] at h
    cases h
    simp [switchNote, hn]
  · simp only [hn, if_false]
    by_cases h0 : event.Kind = 0
    · rw [kindSwitch_kind0 env w event _ _ h0] at h
      cases h; rfl
    · by_cases h6 : event.Kind = 6
      · rw [kindSwitch_repost env w event _ _ h6] at h
        unfold switchRepost at h
        split at h
        · cases h; rfl
        · split at h
          · cases h
          · cases h; rfl
      · by_cases h1063 : event.Kind = 1063
        · rw [kindSwitch_fileMetadata env w event _ _ h1063] at h
          cases h; rfl
        · rw [kindSwitch_default env w event _ _ h0 hn h6 h1063] at h
          cases h
          unfold switchDefault
          split
          · split <;> rfl
          · rfl

/-- A string that starts with "nostr:" is not empty. -/
theorem nostr_append_ne (s : String) : "nostr:" ++ s ≠ "" := by
  intro h
  have hl := congrArg String.length h
  have h6 : "nostr:".length = 6 := by decide
  have h0 : "".length = 0 := by decide
  simp only [String.length_append, h6] at hl
  omega

/-- C15: in every `Data` returned by `grabData`, provided the rendering helper
`replaceNostrURLsWithTags` turns a non-empty input into a non-empty output: for
an event of kind 1, 7, 30023 or 30024 `parentLink` is non-empty if and only if
`getParentNevent` returns a non-empty reference for the event; for an event of
any other kind `parentLink` is empty. -/
theorem grabData_parentLink {σ : Type} (env : Env σ) (w : σ) (code : String)
    (isProfileSitemap : Bool) (event : Event) (relays : List String) (d : Data)
    (hfetch : (env.getEvent w code []).1 = ⟨some event, relays, none⟩)
    (hret : (grabData env w code isProfileSitemap).ret = .ok (some d, none))
    (hreplace : ∀ input, input ≠ "" → env.replaceNostrURLsWithTags input ≠ "") :
    ((event.Kind = 1 ∨ event.Kind = 7 ∨ event.Kind = 30023 ∨ event.Kind = 30024) →
      (d.parentLink ≠ "" ↔ env.getParentNevent event ≠ "")) ∧
    (¬ (event.Kind = 1 ∨ event.Kind = 7 ∨ event.Kind = 30023 ∨ event.Kind = 30024) →
      d.parentLink = "") := by
  rw [grabData_of_fetch env w code isProfileSitemap event relays hfetch] at hret
  obtain ⟨sw, _, _, hsw, _, _, _, _, _, _, _, _, _, _, hpl, _⟩ :=
    grabDataFetched_ret env _ code isProfileSitemap event relays d hret
  rw [hpl, kindSwitch_parentLink env _ event _ isProfileSitemap sw hsw]
  constructor
  · intro hn
    simp only [hn, if_true]
    by_cases hp : env.getParentNevent event = ""
    · simp [hp]
    · simp only [hp, ne_eq, not_false_eq_true, if_true, iff_true]
      exact hreplace _ (nostr_append_ne _)
  · intro hn
    simp [hn]

/-- Witness for C15: a note with an "e" tag, for which the sample
`getParentNevent` returns a reference. -/
theorem grabData_parentLink_witness :
    ∃ d, (grabData (sampleEnv (sampleFetch (sampleEvent 1 [["e", sampleId]] "reply")
        [] notFound)) 0 "code" false).ret = .ok (some d, none) ∧
      (sampleEnv (sampleFetch (sampleEvent 1 [["e", sampleId]] "reply")
        [] notFound)).getParentNevent (sampleEvent 1 [["e", sampleId]] "reply") ≠ "" ∧
      d.parentLink ≠ "" := by
  have hp : (sampleEnv (sampleFetch (sampleEvent 1 [["e", sampleId]] "reply")
      [] notFound)).getParentNevent (sampleEvent 1 [["e", sampleId]] "reply") ≠ "" := by
    decide
  have hreplace : ∀ input, input ≠ "" →
      (sampleEnv (sampleFetch (sampleEvent 1 [["e", sampleId]] "reply")
        [] notFound)).replaceNostrURLsWithTags input ≠ "" := by
    intro input _ h
    have hl := congrArg String.length h
    have h3 : "<a>".length = 3 := by decide
    have h0 : "".length = 0 := by decide
    simp only [sampleEnv, String.length_append, h3] at hl
    omega
  have h := grabData_parentLink (sampleEnv (sampleFetch
    (sampleEvent 1 [["e", sampleId]] "reply") [] notFound)) 0 "code" false
    (sampleEvent 1 [["e", sampleId]] "reply") [] _ rfl rfl hreplace
  exact ⟨_, rfl, hp, (h.1 (by decide)).2 hp⟩

/-- The template selector after the switch, as a function of the kind. -/
theorem kindSwitch_templateId {σ : Type} (env : Env σ) (w : σ) (event : Event)
    (relaysForNip19 : List String) (isProfileSitemap : Bool) (sw : SwitchState σ)
    (h : kindSwitch env w event none relaysForNip19 isProfileSitemap = .ok sw) :
    sw.templateId =
      if event.Kind = 1 ∨ event.Kind = 6 ∨ event.Kind = 7 ∨ event.Kind = 30023 ∨
          event.Kind = 30024 then env.Note
      else if event.Kind = 1063 then env.FileMetadata
      else if 30000 ≤ event.Kind ∧ event.Kind < 40000 then env.Other
      else 0 := by
  by_cases hn : event.Kind = 1 ∨ event.Kind = 7 ∨ event.Kind = 30023 ∨ event.Kind = 30024
  · have hn2 : event.Kind = 1 ∨ event.Kind = 6 ∨ event.Kind = 7 ∨ event.Kind = 30023 ∨
        event.Kind = 30024 := by omega
    rw [kindSwitch_note env w event _ _ hn] at h
    cases h
    simp [switchNote, hn2]
  · by_cases h6 : event.Kind = 6
    · rw [kindSwitch_repost env w event _ _ h6] at h
      unfold switchRepost at h
      split at h
      · cases h; simp [h6]
      · split at h
        · cases h
        · cases h; simp [h6]
    · have hn2 : ¬ (event.Kind = 1 ∨ event.Kind = 6 ∨ event.Kind = 7 ∨
          event.Kind = 30023 ∨ event.Kind = 30024) := by omega
      simp only [hn2, if_false]
      by_cases h0 : event.Kind = 0
      · rw [kindSwitch_kind0 env w event _ _ h0] at h
        cases h
        have h1 : event.Kind ≠ 1063 := by omega
        have h2 : ¬ (30000 ≤ event.Kind ∧ event.Kind < 40000) := by omega
        simp [switchKind0, SwitchState.init, h1, h2]
      · by_cases h1063 : event.Kind = 1063
        · rw [kindSwitch_fileMetadata env w event _ _ h1063] at h
          cases h
          simp [switchFileMetadata, h1063]
        · rw [kindSwitch_default env w event _ _ h0 hn h6 h1063] at h
          cases h
          simp only [h1063, if_false]
          unfold switchDefault
          split
          · split <;> rfl
          · rfl

/-- Outside every case and outside the range 30000..39999 the switch assigns
nothing. -/
theorem kindSwitch_unset {σ : Type} (env : Env σ) (w : σ) (event : Event)
    (relaysForNip19 : List String) (isProfileSitemap : Bool) (sw : SwitchState σ)
    (h : kindSwitch env w event none relaysForNip19 isProfileSitemap = .ok sw)
    (h0 : event.Kind ≠ 0)
    (hn : ¬ (event.Kind = 1 ∨ event.Kind = 6 ∨ event.Kind = 7 ∨ event.Kind = 30023 ∨
      event.Kind = 30024))
    (h1063 : event.Kind ≠ 1063)
    (hrange : ¬ (30000 ≤ event.Kind ∧ event.Kind < 40000)) :
    sw.content = "" ∧ sw.naddr = "" ∧ sw.naddrNaked = "" ∧ sw.parentLink = "" := by
  have hn2 : ¬ (event.Kind = 1 ∨ event.Kind = 7 ∨ event.Kind = 30023 ∨
      event.Kind = 30024) := by omega
  have h6 : event.Kind ≠ 6 := by omega
  rw [kindSwitch_default env w event _ _ h0 hn2 h6 h1063] at h
  cases h
  simp [switchDefault, hrange, SwitchState.init]

/-- C16: in every `Data` returned by `grabData`, `templateId` is a function of
the event kind: `Note` for kinds 1, 6, 7, 30023 and 30024, `FileMetadata` for
kind 1063, `Other` for the other kinds of 30000..39999, and the zero value for
every other kind, kind 0 included; when the three constants differ from each
other and from the zero value, each value is taken for exactly these kinds.
For a kind of the last group other than 0, `content`, `naddr`, `naddrNaked`
and `parentLink` are empty. -/
theorem grabData_templateId {σ : Type} (env : Env σ) (w : σ) (code : String)
    (isProfileSitemap : Bool) (event : Event) (relays : List String) (d : Data)
    (hfetch : (env.getEvent w code []).1 = ⟨some event, relays, none⟩)
    (hret : (grabData env w code isProfileSitemap).ret = .ok (some d, none))
    (hNote : env.Note ≠ 0) (hFile : env.FileMetadata ≠ 0) (hOther : env.Other ≠ 0)
    (hNF : env.Note ≠ env.FileMetadata) (hNO : env.Note ≠ env.Other)
    (hFO : env.FileMetadata ≠ env.Other) :
    (d.templateId = env.Note ↔
      (event.Kind = 1 ∨ event.Kind = 6 ∨ event.Kind = 7 ∨ event.Kind = 30023 ∨
        event.Kind = 30024)) ∧
    (d.templateId = env.FileMetadata ↔ event.Kind = 1063) ∧
    (d.templateId = env.Other ↔
      (30000 ≤ event.Kind ∧ event.Kind < 40000 ∧ event.Kind ≠ 30023 ∧
        event.Kind ≠ 30024)) ∧
    (d.templateId = 0 ↔
      (¬ (event.Kind = 1 ∨ event.Kind = 6 ∨ event.Kind = 7 ∨ event.Kind = 30023 ∨
          event.Kind = 30024) ∧ event.Kind ≠ 1063 ∧
        ¬ (30000 ≤ event.Kind ∧ event.Kind < 40000))) ∧
    (event.Kind ≠ 0 →
      ¬ (event.Kind = 1 ∨ event.Kind = 6 ∨ event.Kind = 7 ∨ event.Kind = 30023 ∨
        event.Kind = 30024) →
      event.Kind ≠ 1063 → ¬ (30000 ≤ event.Kind ∧ event.Kind < 40000) →
      d.content = "" ∧ d.naddr = "" ∧ d.naddrNaked = "" ∧ d.parentLink = "") := by
  rw [grabData_of_fetch env w code isProfileSitemap event relays hfetch] at hret
  obtain ⟨sw, _, _, hsw, _, _, _, _, _, _, _, _, htpl, hcontent, hpl, hnaddr, hnaked, _⟩ :=
    grabDataFetched_ret env _ code isProfileSitemap event relays d hret
  have hT := kindSwitch_templateId env _ event _ isProfileSitemap sw hsw
  rw [← htpl] at hT
  refine ⟨?_, ?_, ?_, ?_, ?_⟩
  · rw [hT]
    by_cases hn : event.Kind = 1 ∨ event.Kind = 6 ∨ event.Kind = 7 ∨ event.Kind = 30023 ∨
        event.Kind = 30024
    · simp [hn]
    · simp only [hn, if_false, iff_false]
      split
      · exact fun h => hNF h.symm
      · split
        · exact fun h => hNO h.symm
        · exact fun h => hNote h.symm
  · rw [hT]
    by_cases hn : event.Kind = 1 ∨ event.Kind = 6 ∨ event.Kind = 7 ∨ event.Kind = 30023 ∨
        event.Kind = 30024
    · have h1 : event.Kind ≠ 1063 := by omega
      simp only [hn, if_true, h1, iff_false]
      exact hNF
    · simp only [hn, if_false]
      by_cases h1063 : event.Kind = 1063
      · simp [h1063]
      · simp only [h1063, if_false, iff_false]
        split
        · exact fun h => hFO h.symm
        · exact fun h => hFile h.symm
  · rw [hT]
    by_cases hn : event.Kind = 1 ∨ event.Kind = 6 ∨ event.Kind = 7 ∨ event.Kind = 30023 ∨
        event.Kind = 30024
    · have h1 : ¬ (30000 ≤ event.Kind ∧ event.Kind < 40000 ∧ event.Kind ≠ 30023 ∧
          event.Kind ≠ 30024) := by omega
      simp only [hn, if_true, h1, iff_false]
      exact hNO
    · simp only [hn, if_false]
      by_cases h1063 : event.Kind = 1063
      · rw [if_pos h1063]
        constructor
        · intro h; exact absurd h hFO
        · intro h; omega
      · simp only [h1063, if_false]
        by_cases hr : 30000 ≤ event.Kind ∧ event.Kind < 40000
        · have h1 : 30000 ≤ event.Kind ∧ event.Kind < 40000 ∧ event.Kind ≠ 30023 ∧
              event.Kind ≠ 30024 := by omega
          simp [hr, h1]
        · have h1 : ¬ (30000 ≤ event.Kind ∧ event.Kind < 40000 ∧ event.Kind ≠ 30023 ∧
              event.Kind ≠ 30024) := by omega
          simp only [hr, if_false, h1, iff_false]
          exact fun h => hOther h.symm
  · rw [hT]
    by_cases hn : event.Kind = 1 ∨ event.Kind = 6 ∨ event.Kind = 7 ∨ event.Kind = 30023 ∨
        event.Kind = 30024
    · simp only [hn, if_true, not_true_eq_false, false_and, iff_false]
      exact hNote
    · simp only [hn, if_false, not_false_eq_true, true_and]
      by_cases h1063 : event.Kind = 1063
      · simp only [h1063, if_true, ne_eq, not_true_eq_false, false_and, iff_false]
        exact hFile
      · simp only [h1063, if_false, ne_eq, not_false_eq_true, true_and]
        by_cases hr : 30000 ≤ event.Kind ∧ event.Kind < 40000
        · simp only [hr, and_self, if_true, not_true_eq_false, iff_false]
          exact hOther
        · simp [hr]
  · intro h0 hn h1063 hrange
    obtain ⟨h1, h2, h3, h4⟩ :=
      kindSwitch_unset env _ event _ isProfileSitemap sw hsw h0 hn h1063 hrange
    exact ⟨hcontent.trans h1, hnaddr.trans h2, hnaked.trans h3, hpl.trans h4⟩

/-- Witness for C16: a kind-4 event, of no case and outside 30000..39999; the
selector keeps its zero value and the four strings are empty. -/
theorem grabData_templateId_witness :
    ∃ d, (grabData (sampleEnv (sampleFetch (sampleEvent 4 [["d", "x"], ["e", sampleId]]
        "secret") [] notFound)) 0 "code" false).ret = .ok (some d, none) ∧
      d.templateId = 0 ∧ d.content = "" ∧ d.naddr = "" ∧ d.naddrNaked = "" ∧
      d.parentLink = "" := by
  obtain ⟨_, _, _, h4, h5⟩ := grabData_templateId (sampleEnv (sampleFetch
    (sampleEvent 4 [["d", "x"], ["e", sampleId]] "secret") [] notFound)) 0 "code" false
    (sampleEvent 4 [["d", "x"], ["e", sampleId]] "secret") [] _ rfl rfl
    (by decide) (by decide) (by decide) (by decide) (by decide) (by decide)
  exact ⟨_, rfl, h4.2 (by decide), h5 (by decide) (by decide) (by decide) (by decide)⟩

/-- C17: in every `Data` returned by `grabData`, `kind1063Metadata` is non-nil
if and only if the event kind is 1063; for kind 1063 it is the map filled from
the tags, which is the empty map when the event has no tag. -/
theorem grabData_kind1063Metadata_nil {σ : Type} (env : Env σ) (w : σ) (code : String)
    (isProfileSitemap : Bool) (event : Event) (relays : List String) (d : Data)
    (hfetch : (env.getEvent w code []).1 = ⟨some event, relays, none⟩)
    (hret : (grabData env w code isProfileSitemap).ret = .ok (some d, none)) :
    (d.kind1063Metadata ≠ none ↔ event.Kind = 1063) ∧
    (event.Kind = 1063 →
      d.kind1063Metadata = some (extractTags event.Tags GoMap.empty)) ∧
    (event.Kind = 1063 → event.Tags = [] → d.kind1063Metadata = some GoMap.empty) := by
  rw [grabData_of_fetch env w code isProfileSitemap event relays hfetch] at hret
  obtain ⟨sw, _, _, hsw, _, _, _, _, _, _, _, _, _, _, _, _, _, hkm, _⟩ :=
    grabDataFetched_ret env _ code isProfileSitemap event relays d hret
  rw [kindSwitch_kind1063Metadata env _ event _ isProfileSitemap sw hsw] at hkm
  refine ⟨?_, ?_, ?_⟩
  · rw [hkm]
    by_cases hk : event.Kind = 1063
    · simp [hk]
    · simp [hk]
  · intro hk
    rw [hkm, if_pos hk]
  · intro hk ht
    rw [hkm, if_pos hk, ht]
    rfl

/-- Witness for C17: a kind-1063 event without tags has an empty, non-nil
map. -/
theorem grabData_kind1063Metadata_nil_witness :
    ∃ d, (grabData (sampleEnv (sampleFetch (sampleEvent 1063 [] "") [] notFound))
        0 "code" false).ret = .ok (some d, none) ∧
      d.kind1063Metadata ≠ none ∧ d.kind1063Metadata = some GoMap.empty := by
  obtain ⟨h1, _, h3⟩ := grabData_kind1063Metadata_nil (sampleEnv (sampleFetch
    (sampleEvent 1063 [] "") [] notFound)) 0 "code" false (sampleEvent 1063 [] "") [] _
    rfl rfl
  exact ⟨_, rfl, h1.2 rfl, h3 rfl rfl⟩

/-! ## Video subtype -/

/-- The subtype after the scan: the one already held when a video is held,
else the subtype of the first URL taken as the video. -/
theorem mediaScan_videoType {σ : Type} (env : Env σ) (urls : List String) (m : Media)
    (hne : ∀ u ∈ urls, u ≠ "") :
    (mediaScan env urls m).videoType =
      if m.video = "" then
        ((urls.find? (fun u => !env.imageExtensionMatcher u &&
          env.videoExtensionMatcher u)).map videoTypeOf).getD m.videoType
      else m.videoType := by
  induction urls generalizing m with
  | nil => simp [mediaScan]
  | cons u rest ih =>
    have hu : u ≠ "" := hne u (List.mem_cons_self _ _)
    have hrest : ∀ v ∈ rest, v ≠ "" := fun v hv => hne v (List.mem_cons_of_mem _ hv)
    by_cases hi : env.imageExtensionMatcher u = true
    · by_cases hm : m.image = ""
      · simp [mediaScan, hi, hm, ih _ hrest]
      · simp [mediaScan, hi, hm, ih _ hrest]
    · by_cases hv : env.videoExtensionMatcher u = true
      · by_cases hm : m.video = ""
        · simp [mediaScan, hi, hv, hm, ih _ hrest, hu]
        · simp [mediaScan, hi, hv, hm, ih _ hrest]
      · simp [mediaScan, hi, hv, ih _ hrest]

/-- The subtype of a URL is one of three non-empty strings. -/
theorem videoTypeOf_cases (video : String) :
    videoTypeOf video ≠ "" ∧
    (videoTypeOf video = "mp4" ∨ videoTypeOf video = "mov" ∨ videoTypeOf video = "webm") := by
  unfold videoTypeOf
  split
  · exact ⟨by decide, Or.inl rfl⟩
  · split
    · exact ⟨by decide, Or.inr (Or.inl rfl)⟩
    · exact ⟨by decide, Or.inr (Or.inr rfl)⟩

/-- C18: in every `Data` returned for an event whose kind is not 1063, the
URLs matched in the content being non-empty strings: `videoType` is empty
exactly when `video` is empty; otherwise it is "mp4" if `video` ends with
"mp4", else "mov" if it ends with "mov", else "webm"; so it is one of "",
"mp4", "mov" and "webm". -/
theorem grabData_videoType {σ : Type} (env : Env σ) (w : σ) (code : String)
    (isProfileSitemap : Bool) (event : Event) (relays : List String) (d : Data)
    (hfetch : (env.getEvent w code []).1 = ⟨some event, relays, none⟩)
    (hret : (grabData env w code isProfileSitemap).ret = .ok (some d, none))
    (hkind : event.Kind ≠ 1063)
    (hne : ∀ u ∈ env.urlMatcher event.Content, u ≠ "") :
    (d.videoType = "" ↔ d.video = "") ∧
    (d.video ≠ "" →
      d.videoType =
        if stringsHasSuffix d.video "mp4" then "mp4"
        else if stringsHasSuffix d.video "mov" then "mov"
        else "webm") ∧
    (d.videoType = "" ∨ d.videoType = "mp4" ∨ d.videoType = "mov" ∨
      d.videoType = "webm") := by
  rw [grabData_of_fetch env w code isProfileSitemap event relays hfetch] at hret
  obtain ⟨sw, media, short, _, hmedia, _, _, _, _, _, hvid, hvt, _⟩ :=
    grabDataFetched_ret env _ code isProfileSitemap event relays d hret
  rw [mediaOf_scan env event _ hkind] at hmedia
  have hm := (Except.ok.inj hmedia).symm
  subst hm
  rw [mediaScan_video env _ _ hne] at hvid
  rw [mediaScan_videoType env _ _ hne] at hvt
  simp only [if_true] at hvid hvt
  cases hfind : (env.urlMatcher event.Content).find?
      (fun u => !env.imageExtensionMatcher u && env.videoExtensionMatcher u) with
  | none =>
    rw [hfind] at hvid hvt
    simp only [Option.getD_none, Option.map_none'] at hvid hvt
    refine ⟨by rw [hvid, hvt], fun h => absurd hvid h, Or.inl hvt⟩
  | some u =>
    rw [hfind] at hvid hvt
    simp only [Option.getD_some, Option.map_some'] at hvid hvt
    have hu : u ≠ "" := hne u (List.mem_of_find?_eq_some hfind)
    obtain ⟨hne2, hcases⟩ := videoTypeOf_cases u
    refine ⟨?_, ?_, ?_⟩
    · rw [hvid, hvt]
      exact ⟨fun h => absurd h hne2, fun h => absurd h hu⟩
    · intro _
      rw [hvt, hvid]
      rfl
    · rw [hvt]
      exact Or.inr hcases

/-- Witness for C18: a note whose first video URL ends with "mov". -/
theorem grabData_videoType_witness :
    ∃ d, (grabData (sampleEnv (sampleFetch (sampleEvent 1 []
        "watch https://example.com/b.mov https://example.com/c.mp4") [] notFound))
        0 "code" false).ret = .ok (some d, none) ∧
      d.video = "https://example.com/b.mov" ∧ d.videoType = "mov" := by
  refine ⟨_, rfl, by decide, ?_⟩
  obtain ⟨_, h2, _⟩ := grabData_videoType (sampleEnv (sampleFetch (sampleEvent 1 []
    "watch https://example.com/b.mov https://example.com/c.mp4") [] notFound))
    0 "code" false (sampleEvent 1 []
    "watch https://example.com/b.mov https://example.com/c.mp4") [] _ rfl rfl
    (by decide) (by decide)
  exact (h2 (by decide)).trans (by decide)

/-! ## Repeated keys in a file-metadata event -/

/-- The values of a tag list that starts with a two-element tag. -/
theorem tagValues_cons_pair (k value : String) (rest : Tags) (key : String) :
    tagValues ([k, value] :: rest) key =
      if k = key then value :: tagValues rest key else tagValues rest key := by
  by_cases h : k = key
  · simp [tagValues, List.filterMap_cons, h]
  · simp [tagValues, List.filterMap_cons, h]

/-- For an allow-listed key the map holds the value of the last two-element tag
with that key, and what it held before when there is no such tag. -/
theorem extractTags_find_last (tags : Tags) (m : GoMap) (key : String)
    (hkey : key ∈ keysToExtract) :
    (extractTags tags m).find key =
      match (tagValues tags key).getLast? with
      | some value => some value
      | none => m.find key := by
  induction tags generalizing m with
  | nil => simp [extractTags, tagValues]
  | cons tag rest ih =>
    match tag with
    | [] => simpa [extractTags, tagValues, List.filterMap_cons] using ih m
    | [a] => simpa [extractTags, tagValues, List.filterMap_cons] using ih m
    | a :: b :: c :: r => simpa [extractTags, tagValues, List.filterMap_cons] using ih m
    | [k, value] =>
      simp only [extractTags, extractKey_eq, tagValues_cons_pair]
      rw [ih]
      by_cases hk : k = key
      · subst hk
        simp only [hkey, if_true, List.getLast?_cons, GoMap.find_set]
        cases (tagValues rest k).getLast? <;> simp
      · simp only [hk, if_false]
        cases (tagValues rest key).getLast? with
        | some v => rfl
        | none =>
          by_cases hin : k ∈ keysToExtract
          · have hk2 : key ≠ k := fun h => hk h.symm
            simp [hin, GoMap.find_set, hk2]
          · simp [hin]

/-- C19: in every `Data` returned for a kind-1063 event, the value stored in
`kind1063Metadata` for an allow-listed key is the value of the last two-element
tag with that key, in tag order; so the `url` and `m` values, from which the
media block computes `image`, `video` and `videoType`, are those of the last
"url" and "m" tags. -/
theorem grabData_kind1063Metadata_last {σ : Type} (env : Env σ) (w : σ) (code : String)
    (isProfileSitemap : Bool) (event : Event) (relays : List String) (d : Data)
    (hfetch : (env.getEvent w code []).1 = ⟨some event, relays, none⟩)
    (hret : (grabData env w code isProfileSitemap).ret = .ok (some d, none))
    (hkind : event.Kind = 1063) :
    (∃ m, d.kind1063Metadata = some m ∧
      ∀ key ∈ keysToExtract, m.find key = (tagValues event.Tags key).getLast?) ∧
    mapIndex d.kind1063Metadata "url" = ((tagValues event.Tags "url").getLast?).getD "" ∧
    mapIndex d.kind1063Metadata "m" = ((tagValues event.Tags "m").getLast?).getD "" ∧
    mediaFileMetadata d.kind1063Metadata = .ok ⟨d.image, d.video, d.videoType⟩ := by
  rw [grabData_of_fetch env w code isProfileSitemap event relays hfetch] at hret
  obtain ⟨sw, media, short, hsw, hmedia, _, _, _, _, himg, hvid, hvt, _, _, _, _, _,
    hkm, _⟩ := grabDataFetched_ret env _ code isProfileSitemap event relays d hret
  have hkm2 := kindSwitch_kind1063Metadata env _ event _ isProfileSitemap sw hsw
  simp only [hkind, if_true] at hkm2
  have hlast : ∀ key ∈ keysToExtract,
      (extractTags event.Tags GoMap.empty).find key = (tagValues event.Tags key).getLast? := by
    intro key hkey
    rw [extractTags_find_last _ _ _ hkey]
    cases (tagValues event.Tags key).getLast? <;> rfl
  simp only [mediaOf, hkind, if_true] at hmedia
  rw [← hkm] at hmedia
  rw [hkm, hkm2]
  refine ⟨⟨_, rfl, hlast⟩, ?_, ?_, ?_⟩
  · simp only [mapIndex]
    rw [hlast "url" (by decide)]
  · simp only [mapIndex]
    rw [hlast "m" (by decide)]
  · rw [hkm, hkm2] at hmedia
    rw [hmedia, himg, hvid, hvt]

/-- Witness for C19: two "url" tags and two "m" tags; the last of each is
stored, and the image is the last URL. -/
theorem grabData_kind1063Metadata_last_witness :
    ∃ d, (grabData (sampleEnv (sampleFetch (sampleEvent 1063
        [["url", "https://example.com/old.mp4"], ["m", "video/mp4"],
         ["url", "https://example.com/new.png"], ["m", "image/png"]] "")
        [] notFound)) 0 "code" false).ret = .ok (some d, none) ∧
      mapIndex d.kind1063Metadata "url" = "https://example.com/new.png" ∧
      mapIndex d.kind1063Metadata "m" = "image/png" ∧
      d.image = "https://example.com/new.png" ∧ d.video = "" := by
  obtain ⟨_, h2, h3, _⟩ := grabData_kind1063Metadata_last (sampleEnv (sampleFetch
    (sampleEvent 1063
      [["url", "https://example.com/old.mp4"], ["m", "video/mp4"],
       ["url", "https://example.com/new.png"], ["m", "image/png"]] "")
    [] notFound)) 0 "code" false (sampleEvent 1063
      [["url", "https://example.com/old.mp4"], ["m", "video/mp4"],
       ["url", "https://example.com/new.png"], ["m", "image/png"]] "") [] _ rfl rfl rfl
  exact ⟨_, rfl, h2.trans (by decide), h3.trans (by decide), by decide, by decide⟩

/-! ## Media classification of a file-metadata event -/

/-- The first piece of a split, and the pieces after the first separator. -/
theorem splitChars_eq (sep : Char) (cs cur : List Char) :
    splitChars sep cs cur =
      String.mk (cur.reverse ++ cs.takeWhile (fun c => c != sep)) ::
        (if sep ∈ cs then splitChars sep ((cs.dropWhile (fun c => c != sep)).drop 1) []
         else []) := by
  induction cs generalizing cur with
  | nil => simp [splitChars]
  | cons c rest ih =>
    by_cases h : c = sep
    · subst h
      simp [splitChars, List.takeWhile_cons, List.dropWhile_cons]
    · have hne : (c != sep) = true := by simpa using h
      have hmem : (sep ∈ c :: rest) ↔ sep ∈ rest := by
        constructor
        · intro hm
          rcases List.mem_cons.1 hm with h1 | h1
          · exact absurd h1.symm h
          · exact h1
        · intro hm; exact List.mem_cons_of_mem _ hm
      simp only [splitChars, h, if_false, ih, List.takeWhile_cons, hne, if_true,
        List.dropWhile_cons, hmem, List.reverse_cons, List.append_assoc,
        List.singleton_append]

/-- The element at index 1 of `strings.Split(s, "/")`: the part after the first
"/" and before any further "/", and a panic when `s` has no "/". -/
theorem indexSlice_split (s : String) :
    indexSlice (stringsSplit s '/') 1 =
      if '/' ∈ s.data then .ok (afterFirstSlash s) else .error .indexOutOfRange := by
  unfold stringsSplit
  rw [splitChars_eq]
  by_cases h : '/' ∈ s.data
  · simp only [h, if_true]
    rw [splitChars_eq]
    simp [indexSlice, afterFirstSlash]
  · simp [h, indexSlice]

/-- Containing the one-character string is containing the character. -/
theorem containsChars_singleton (cs : List Char) (c : Char) :
    containsChars cs [c] = true ↔ c ∈ cs := by
  induction cs with
  | nil => simp [containsChars]
  | cons x rest ih =>
    simp only [containsChars, Bool.or_eq_true, ih, List.mem_cons]
    constructor
    · rintro (h | h)
      · left
        simpa [List.isPrefixOf] using h
      · right; exact h
    · rintro (h | h)
      · left
        simp [List.isPrefixOf, h]
      · right; exact h

/-- No string starts with both "image" and "video". -/
theorem not_image_and_video (s : String) (h : stringsStartsWith s "image" = true) :
    stringsStartsWith s "video" = false := by
  unfold stringsStartsWith at h ⊢
  have hi : "image".data = ['i', 'm', 'a', 'g', 'e'] := rfl
  have hv : "video".data = ['v', 'i', 'd', 'e', 'o'] := rfl
  rw [hi] at h
  rw [hv]
  cases hs : s.data with
  | nil => rfl
  | cons c cs =>
    rw [hs] at h
    simp only [List.isPrefixOf, Bool.and_eq_true, beq_iff_eq] at h
    have hc : c = 'i' := h.1.symm
    subst hc
    simp [List.isPrefixOf]

/-- The media block of a kind-1063 event, case by case. -/
theorem mediaFileMetadata_cases (km : Option GoMap) (media : Media)
    (h : mediaFileMetadata km = .ok media) :
    (stringsStartsWith (mapIndex km "m") "image" = true →
      media = ⟨mapIndex km "url", "", ""⟩) ∧
    (stringsStartsWith (mapIndex km "m") "video" = true →
      stringsContains (mapIndex km "m") "/" = true →
      media = ⟨"", mapIndex km "url", afterFirstSlash (mapIndex km "m")⟩) ∧
    (stringsStartsWith (mapIndex km "m") "image" = false →
      ¬ (stringsStartsWith (mapIndex km "m") "video" = true ∧
        stringsContains (mapIndex km "m") "/" = true) →
      media = ⟨"", "", ""⟩) := by
  have hslash : stringsContains (mapIndex km "m") "/" = true ↔
      '/' ∈ (mapIndex km "m").data := by
    unfold stringsContains
    exact containsChars_singleton _ '/'
  unfold mediaFileMetadata at h
  rw [indexSlice_split] at h
  by_cases hi : stringsStartsWith (mapIndex km "m") "image" = true
  · have hv := not_image_and_video _ hi
    simp only [hi, if_true] at h
    have hm := (Except.ok.inj h).symm
    refine ⟨fun _ => hm, ?_, ?_⟩
    · intro hv2; rw [hv] at hv2; cases hv2
    · intro hi2; rw [hi] at hi2; cases hi2
  · have hi2 : stringsStartsWith (mapIndex km "m") "image" = false := by
      simpa using hi
    simp only [hi2, Bool.false_eq_true, if_false] at h
    by_cases hv : stringsStartsWith (mapIndex km "m") "video" = true
    · simp only [hv, if_true] at h
      by_cases hs : '/' ∈ (mapIndex km "m").data
      · simp only [hs, if_true] at h
        have hm := (Except.ok.inj h).symm
        refine ⟨fun h1 => absurd h1 hi, fun _ _ => hm, ?_⟩
        intro _ hn
        exact absurd ⟨hv, hslash.2 hs⟩ hn
      · simp only [hs, if_false] at h
        cases h
    · simp only [hv, if_false] at h
      have hm := (Except.ok.inj h).symm
      refine ⟨fun h1 => absurd h1 hi, fun h1 => absurd h1 hv, fun _ _ => hm⟩

/-- C11: in every `Data` returned for a kind-1063 event, with `m` and `url` the
values of `kind1063Metadata`: if `m` starts with "image", `image` is `url` and
`video`, `videoType` are empty; if `m` starts with "video" and contains "/",
`video` is `url`, `videoType` is the part of `m` after its first "/" and before
any further "/", and `image` is empty; otherwise all three are empty.  `image`
and `video` are never both non-empty, and the three fields are computed from
the metadata map alone, not from the event content. -/
theorem grabData_fileMetadata_media {σ : Type} (env : Env σ) (w : σ) (code : String)
    (isProfileSitemap : Bool) (event : Event) (relays : List String) (d : Data)
    (hfetch : (env.getEvent w code []).1 = ⟨some event, relays, none⟩)
    (hret : (grabData env w code isProfileSitemap).ret = .ok (some d, none))
    (hkind : event.Kind = 1063) :
    (stringsStartsWith (mapIndex d.kind1063Metadata "m") "image" = true →
      d.image = mapIndex d.kind1063Metadata "url" ∧ d.video = "" ∧ d.videoType = "") ∧
    (stringsStartsWith (mapIndex d.kind1063Metadata "m") "video" = true →
      stringsContains (mapIndex d.kind1063Metadata "m") "/" = true →
      d.video = mapIndex d.kind1063Metadata "url" ∧
      d.videoType = afterFirstSlash (mapIndex d.kind1063Metadata "m") ∧ d.image = "") ∧
    (stringsStartsWith (mapIndex d.kind1063Metadata "m") "image" = false →
      ¬ (stringsStartsWith (mapIndex d.kind1063Metadata "m") "video" = true ∧
        stringsContains (mapIndex d.kind1063Metadata "m") "/" = true) →
      d.image = "" ∧ d.video = "" ∧ d.videoType = "") ∧
    ¬ (d.image ≠ "" ∧ d.video ≠ "") ∧
    d.kind1063Metadata = some (extractTags event.Tags GoMap.empty) ∧
    mediaFileMetadata (some (extractTags event.Tags GoMap.empty)) =
      .ok ⟨d.image, d.video, d.videoType⟩ := by
  rw [grabData_of_fetch env w code isProfileSitemap event relays hfetch] at hret
  obtain ⟨sw, media, short, hsw, hmedia, _, _, _, _, himg, hvid, hvt, _, _, _, _, _,
    hkm, _⟩ := grabDataFetched_ret env _ code isProfileSitemap event relays d hret
  have hkm2 := kindSwitch_kind1063Metadata env _ event _ isProfileSitemap sw hsw
  simp only [hkind, if_true] at hkm2
  simp only [mediaOf, hkind, if_true] at hmedia
  rw [← hkm] at hmedia
  obtain ⟨h1, h2, h3⟩ := mediaFileMetadata_cases _ _ hmedia
  have hd : media = ⟨d.image, d.video, d.videoType⟩ := by
    rw [himg, hvid, hvt]
  refine ⟨?_, ?_, ?_, ?_, ?_, ?_⟩
  · intro hi
    have := h1 hi
    rw [this] at himg hvid hvt
    exact ⟨himg, hvid, hvt⟩
  · intro hv hs
    have := h2 hv hs
    rw [this] at himg hvid hvt
    exact ⟨hvid, hvt, himg⟩
  · intro hi hn
    have := h3 hi hn
    rw [this] at himg hvid hvt
    exact ⟨himg, hvid, hvt⟩
  · rintro ⟨hin, hvn⟩
    by_cases hi : stringsStartsWith (mapIndex d.kind1063Metadata "m") "image" = true
    · have := h1 hi
      rw [this] at hvid
      exact hvn hvid
    · have hi2 : stringsStartsWith (mapIndex d.kind1063Metadata "m") "image" = false := by
        simpa using hi
      by_cases hv : stringsStartsWith (mapIndex d.kind1063Metadata "m") "video" = true ∧
          stringsContains (mapIndex d.kind1063Metadata "m") "/" = true
      · have := h2 hv.1 hv.2
        rw [this] at himg
        exact hin himg
      · have := h3 hi2 hv
        rw [this] at himg
        exact hin himg
  · rw [hkm, hkm2]
  · rw [hkm, hkm2] at hmedia
    rw [hmedia, hd]

/-- Witness for C11: a declared media type "video/mp4/extra". -/
theorem grabData_fileMetadata_media_witness :
    ∃ d, (grabData (sampleEnv (sampleFetch (sampleEvent 1063
        [["url", "https://example.com/v.bin"], ["m", "video/mp4/extra"]]
        "https://example.com/a.png") [] notFound)) 0 "code" false).ret =
        .ok (some d, none) ∧
      d.video = "https://example.com/v.bin" ∧ d.videoType = "mp4" ∧ d.image = "" := by
  obtain ⟨_, h2, _⟩ := grabData_fileMetadata_media (sampleEnv (sampleFetch
    (sampleEvent 1063 [["url", "https://example.com/v.bin"], ["m", "video/mp4/extra"]]
      "https://example.com/a.png") [] notFound)) 0 "code" false
    (sampleEvent 1063 [["url", "https://example.com/v.bin"], ["m", "video/mp4/extra"]]
      "https://example.com/a.png") [] _ rfl rfl rfl
  obtain ⟨hv, ht, hi⟩ := h2 (by decide) (by decide)
  exact ⟨_, rfl, hv.trans (by decide), ht.trans (by decide), hi⟩

end Njump
